import Mathlib

set_option linter.unusedSectionVars false

/-
Verification of the deepKNet XRD pattern simulator
(`data_gen/diffraction_simulator/XRD_simulator.py`, class `XRDSimulator`).

The Python code is shallowly embedded over an arbitrary `LinearOrderedField K`
(the code's IEEE floats are idealised as field elements).  The transcendental
library routines the code calls (`math.sin`, `math.cos`, `math.asin`,
`numpy.exp`, `math.pi`) are bundled in a `MathFns` record so that every
structural fact is proved for all possible values of those routines; the
record is instantiated with the genuine real functions (`realM`) where a
claim needs their analytic properties, and with computable rational stand-ins
(`ratM`) to evaluate the embedding on concrete inputs.

External collaborators that are not part of this repository are modelled as
parameters, following the specification:
  * the atomic scattering parameter table (a JSON data file) is a parameter
    `tbl : String → Option (List (K × K))`;
  * `pymatgen`'s `Lattice.get_points_in_sphere` is a field `pointsInSphere`
    of the input structure (it returns `(hkl, |g_hkl|)` pairs);
  * `pymatgen`'s `get_unique_families` and `SpacegroupAnalyzer` refinement
    are fields of the `Ext` record;
  * `DiffractionPattern.normalize` and the two tolerance constants of
    `AbstractDiffractionPatternCalculator` are modelled from the spec, see
    `normalizeMax100`, `twoThetaTol` and `scaledIntensityTol`.

Python exceptions are modelled by `Except PyErr`; an assertion that the
source wraps in `try: ... except: print(...)` is a no-op (the reference
implementation prints and continues), and is therefore not modelled as a
failure.
-/

namespace XRD

/-- Python-level runtime errors that `get_pattern` can raise. -/
inductive PyErr where
  | zeroDivisionError : PyErr
  | valueError : String → PyErr
deriving DecidableEq, Repr

/-- The mathematical library routines used by the Python code:
`math.sin`, `math.cos`, `math.asin`, the elementwise `numpy.exp`, and the
constant `math.pi`, abstracted so the embedding is generic in the field. -/
structure MathFns (K : Type) where
  sin : K → K
  cos : K → K
  asin : K → K
  exp : K → K
  pi : K

/-- One occupying species of a site: atomic number `Z` (`sp.Z`) and the
element symbol used to key the scattering-coefficient table. -/
structure Species where
  Z : ℕ
  symbol : String
deriving DecidableEq, Repr

/-- A crystal site: its species list (`site.species.items()`, normally a
single `(species, occupancy)` pair) and its fractional coordinates. -/
structure Site (K : Type) where
  species : List (Species × K)
  fracCoords : K × K × K

/-- The input crystal structure, reduced to the fields `get_pattern` reads:
the site list, the cell volume, the `latt.is_hexagonal()` flag, the
crystallographic reciprocal lattice matrix, and the external
`recip_latt.get_points_in_sphere` enumerator, which for a radius `r`
returns the list of reciprocal lattice points as `(hkl, |g_hkl|)` pairs. -/
structure XStructure (K : Type) where
  sites : List (Site K)
  volume : K
  isHexagonal : Bool
  recipMatrix : List (List K)
  pointsInSphere : K → List ((ℤ × ℤ × ℤ) × K)

/-- External collaborators of `get_pattern` that live outside this
repository: the atomic scattering parameter table, the `SpacegroupAnalyzer`
refinement used when `symprec ≠ 0`, and pymatgen's `get_unique_families`. -/
structure Ext (K : Type) where
  tbl : String → Option (List (K × K))
  refine : XStructure K → XStructure K
  uniqueFamilies : List (List ℤ) → List (List ℤ × ℕ)

/-- One row of the flattened per-species arrays `zs`, `coeffs`, `fcoords`,
`occus` built in lines 187-213 of the source. -/
structure ScatterEntry (K : Type) where
  z : ℕ
  coeff : List (K × K)
  fcoord : K × K × K
  occu : K
deriving DecidableEq

/-- The value stored for one key of the `peaks` dict: accumulated
Lorentz-corrected intensity, the list of contributing index tuples, and the
(first-seen) d-spacing. -/
structure PeakData (K : Type) where
  intensity : K
  fams : List (List ℤ)
  dHkl : K
deriving DecidableEq

/-- The mutable state of the main loop of `get_pattern`: the insertion-order
`peaks` dict (as an association list), the `two_thetas` list, and the
`features` list. -/
structure LoopState (K : Type) where
  peaks : List (K × PeakData K)
  twoThetas : List K
  features : List (ℤ × ℤ × ℤ × K)
deriving DecidableEq

/-- The `DiffractionPattern(x, y, hkls, d_hkls)` object returned to the
caller. -/
structure DiffPattern (K : Type) where
  x : List K
  y : List K
  hkls : List (List (List ℤ × ℕ))
  dHkls : List K
deriving DecidableEq

/-- The triple returned by `get_pattern`: the diffraction pattern, the
reciprocal lattice matrix and the point-cloud feature list. -/
structure XRDResult (K : Type) where
  pattern : DiffPattern K
  recipMatrix : List (List K)
  features : List (ℤ × ℤ × ℤ × K)
deriving DecidableEq

variable {K : Type} [LinearOrderedField K]

/-- The `ValueError` raised at lines 203-205 when an element symbol has no
entry in the scattering-coefficient table. -/
def errNoCoeff (sym : String) : PyErr :=
  .valueError ("Unable to calculate XRD pattern as there is no scattering coefficients for "
    ++ sym ++ ".")

/-- The `ValueError` Python raises for `max([])` at line 293. -/
def errEmptyMax : PyErr := .valueError "max() arg is an empty sequence"

/-- The `ValueError` `math.asin` raises outside `[-1, 1]`. -/
def errDomain : PyErr := .valueError "math domain error"

/-- Modelled from the spec: `AbstractDiffractionPatternCalculator.TWO_THETA_TOL`
(pymatgen, outside this repository).  The fixed angular tolerance, in degrees,
within which two reflections are merged into one peak; its reference value is
`1e-5`. -/
def twoThetaTol : K := 1 / 100000

/-- Modelled from the spec: `AbstractDiffractionPatternCalculator.SCALED_INTENSITY_TOL`
(pymatgen, outside this repository).  A peak whose intensity, rescaled so the
maximum is 100, does not exceed this value is dropped from the displayed
pattern; its reference value is `1e-3`. -/
def scaledIntensityTol : K := 1 / 1000

/-- Lines 198-208 for the species of one site: look up the scattering
coefficients of each species, raising `errNoCoeff` on a missing symbol, and
record the flattened `(z, coeff, fcoord, occu)` rows. -/
def speciesEntries (tbl : String → Option (List (K × K))) (fc : K × K × K) :
    List (Species × K) → Except PyErr (List (ScatterEntry K))
  | [] => .ok []
  | q :: rest =>
    match tbl q.1.symbol with
    | none => .error (errNoCoeff q.1.symbol)
    | some c =>
      match speciesEntries tbl fc rest with
      | .error e => .error e
      | .ok es => .ok (⟨q.1.Z, c, fc, q.2⟩ :: es)

/-- Lines 198-208: the flattened rows contributed by one site. -/
def siteEntries (tbl : String → Option (List (K × K))) (site : Site K) :
    Except PyErr (List (ScatterEntry K)) :=
  speciesEntries tbl site.fracCoords site.species

/-- Lines 187-213: the flattened arrays `zs`, `coeffs`, `fcoords`, `occus`
over all sites, with the first missing element symbol raising `errNoCoeff`. -/
def buildScatteringData (tbl : String → Option (List (K × K))) :
    List (Site K) → Except PyErr (List (ScatterEntry K))
  | [] => .ok []
  | site :: rest =>
    match siteEntries tbl site with
    | .error e => .error e
    | .ok es =>
      match buildScatteringData tbl rest with
      | .error e => .error e
      | .ok more => .ok (es ++ more)

/-- Line 227: `if (g_hkl < 1e-4) or (g_hkl > 2./self.wavelength): continue`.
`true` means the reciprocal point is skipped. -/
def pointSkipped (wavelength g : K) : Bool :=
  decide (g < 1 / 10000) || decide (2 / wavelength < g)

/-- The Python sort key of line 224: `(i[1], -i[0][0], -i[0][1], -i[0][2])`,
i.e. the magnitude followed by the negated Miller indices. -/
def ptKey (p : (ℤ × ℤ × ℤ) × K) : K × ℤ × ℤ × ℤ :=
  (p.2, -p.1.1, -p.1.2.1, -p.1.2.2)

/-- Lexicographic comparison of the sort keys, as Python compares tuples. -/
def keyLE (a b : K × ℤ × ℤ × ℤ) : Prop :=
  a.1 < b.1 ∨ (a.1 = b.1 ∧ (a.2.1 < b.2.1 ∨ (a.2.1 = b.2.1 ∧
    (a.2.2.1 < b.2.2.1 ∨ (a.2.2.1 = b.2.2.1 ∧ a.2.2.2 ≤ b.2.2.2)))))

instance (a b : K × ℤ × ℤ × ℤ) : Decidable (keyLE a b) := by
  unfold keyLE
  infer_instance

/-- Boolean form of the point ordering used by the sort of line 223. -/
def ptLE (a b : (ℤ × ℤ × ℤ) × K) : Bool := decide (keyLE (ptKey a) (ptKey b))

/-- Line 223-224: `sorted(recip_pts, key=lambda i: (i[1], -i[0][0], -i[0][1], -i[0][2]))`
(Python's `sorted` is a stable merge sort). -/
def sortPts (pts : List ((ℤ × ℤ × ℤ) × K)) : List ((ℤ × ℤ × ℤ) × K) :=
  pts.mergeSort ptLE

/-- Line 243: the scalar product `g_dot_r` of a site's fractional
coordinates with the integer point `hkl`. -/
def gDotR (fcoord : K × K × K) (hkl : ℤ × ℤ × ℤ) : K :=
  fcoord.1 * (hkl.1 : K) + fcoord.2.1 * (hkl.2.1 : K) + fcoord.2.2 * (hkl.2.2 : K)

/-- Lines 253-254: the atomic scattering factor
`fs = zs - 41.78214 * s2 * sum(coeffs[:, :, 0] * exp(-coeffs[:, :, 1] * s2))`. -/
def atomicF (M : MathFns K) (s2 : K) (e : ScatterEntry K) : K :=
  (e.z : K) - (4178214 / 100000 : K) * s2 *
    (e.coeff.map fun ab => ab.1 * M.exp (-ab.2 * s2)).sum

/-- Complex multiplication on pairs `(re, im)`. -/
def cmul (a b : K × K) : K × K := (a.1 * b.1 - a.2 * b.2, a.1 * b.2 + a.2 * b.1)

/-- Complex conjugation on pairs `(re, im)`. -/
def cconj (a : K × K) : K × K := (a.1, -a.2)

/-- `np.exp(1j * x)` for a purely imaginary argument: `(cos x, sin x)`. -/
def cexpIm (M : MathFns K) (x : K) : K × K := (M.cos x, M.sin x)

/-- Componentwise sum of complex pairs (`np.sum`). -/
def csum (l : List (K × K)) : K × K := ((l.map Prod.fst).sum, (l.map Prod.snd).sum)

/-- Line 259: the structure factor
`f_hkl = np.sum(fs * occus * np.exp(2j * pi * g_dot_r))`. -/
def fHkl (M : MathFns K) (entries : List (ScatterEntry K)) (s2 : K)
    (hkl : ℤ × ℤ × ℤ) : K × K :=
  csum (entries.map fun e =>
    cmul (atomicF M s2 e * e.occu, 0) (cexpIm M (2 * M.pi * gDotR e.fcoord hkl)))

/-- Line 266: `i_hkl = (f_hkl * f_hkl.conjugate()).real`, with
`s2 = (g_hkl / 2) ** 2` from lines 236-239. -/
def iHkl (M : MathFns K) (entries : List (ScatterEntry K)) (hkl : ℤ × ℤ × ℤ)
    (g : K) : K :=
  (cmul (fHkl M entries ((g / 2) ^ 2) hkl) (cconj (fHkl M entries ((g / 2) ^ 2) hkl))).1

/-- Lines 262-263: the Lorentz-polarization factor
`(1 + cos(2 theta)^2) / (sin(theta)^2 * cos(theta))`. -/
def lorentzFactor (M : MathFns K) (theta : K) : K :=
  (1 + M.cos (2 * theta) ^ 2) / (M.sin theta ^ 2 * M.cos theta)

/-- `math.degrees`. -/
def degrees (M : MathFns K) (x : K) : K := x * 180 / M.pi

/-- `math.radians`. -/
def radians (M : MathFns K) (x : K) : K := x * M.pi / 180

/-- Lines 278-280: for hexagonal lattices the recorded index tuple is the
Miller-Bravais 4-tuple `(h, k, -h-k, l)`; otherwise the raw 3-tuple. -/
def hklTuple (isHex : Bool) (hkl : ℤ × ℤ × ℤ) : List ℤ :=
  if isHex then [hkl.1, hkl.2.1, -hkl.1 - hkl.2.1, hkl.2.2]
  else [hkl.1, hkl.2.1, hkl.2.2]

/-- Update the value stored under the first occurrence of `key` in the
association list (the Python dict update `peaks[k] = ...`). -/
def updateAssoc (peaks : List (K × PeakData K)) (key : K)
    (f : PeakData K → PeakData K) : List (K × PeakData K) :=
  match peaks with
  | [] => []
  | e :: rest =>
    if e.1 = key then (e.1, f e.2) :: rest else e :: updateAssoc rest key f

/-- Lines 281-290: merge the reflection into the `peaks` dict.  The first
stored `two_theta` within `twoThetaTol` of the new one (found by
`np.where(...)[0][0]`) receives the Lorentz-corrected intensity and the
index tuple; otherwise a new peak keyed by the new `two_theta` is created
with the reflection's d-spacing. -/
def recordPeak (twoTheta iH lorentz : K) (tup : List ℤ) (dHkl : K)
    (peaks : List (K × PeakData K)) (twoThetas : List K) :
    List (K × PeakData K) × List K :=
  match twoThetas.findIdx? (fun t => decide (|t - twoTheta| < twoThetaTol)) with
  | some i =>
    (updateAssoc peaks (twoThetas.getD i 0)
      (fun v => ⟨v.intensity + iH * lorentz, v.fams ++ [tup], v.dHkl⟩), twoThetas)
  | none =>
    (peaks ++ [(twoTheta, ⟨iH * lorentz, [tup], dHkl⟩)], twoThetas ++ [twoTheta])

/-- The feature row appended at line 274:
`[hkl[0], hkl[1], hkl[2], i_hkl / volume**2]`. -/
def featureRow (M : MathFns K) (entries : List (ScatterEntry K)) (volume : K)
    (p : (ℤ × ℤ × ℤ) × K) : ℤ × ℤ × ℤ × K :=
  (p.1.1, p.1.2.1, p.1.2.2, iHkl M entries p.1 p.2 / volume ^ 2)

/-- Lines 229-290 for one unskipped reciprocal point: compute the Bragg
angle, the intensity, the feature row, the displayed `two_theta`, the
(possibly Miller-Bravais) index tuple, and merge into the peak dict. -/
def stepKeep (M : MathFns K) (wavelength : K) (entries : List (ScatterEntry K))
    (volume : K) (isHex : Bool) (st : LoopState K) (p : (ℤ × ℤ × ℤ) × K) :
    LoopState K :=
  let hkl := p.1
  let g := p.2
  let dHkl := 1 / g
  let theta := M.asin (wavelength * g / 2)
  let iH := iHkl M entries hkl g
  let feats := st.features ++ [featureRow M entries volume p]
  let twoTheta := degrees M (2 * theta)
  let tup := hklTuple isHex hkl
  let pr := recordPeak twoTheta iH (lorentzFactor M theta) tup dHkl st.peaks st.twoThetas
  ⟨pr.1, pr.2, feats⟩

/-- One iteration of the loop of lines 223-290: skipped points (line 227)
leave the state unchanged; otherwise `math.asin` requires its argument in
`[-1, 1]` and the point is processed by `stepKeep`. -/
def processPoint (M : MathFns K) (wavelength : K) (entries : List (ScatterEntry K))
    (volume : K) (isHex : Bool) (st : LoopState K) (p : (ℤ × ℤ × ℤ) × K) :
    Except PyErr (LoopState K) :=
  if pointSkipped wavelength p.2 then .ok st
  else if 1 < |wavelength * p.2 / 2| then .error errDomain
  else .ok (stepKeep M wavelength entries volume isHex st p)

/-- The loop of lines 223-290 over the sorted reciprocal points. -/
def runPoints (M : MathFns K) (wavelength : K) (entries : List (ScatterEntry K))
    (volume : K) (isHex : Bool) (st : LoopState K) :
    List ((ℤ × ℤ × ℤ) × K) → Except PyErr (LoopState K)
  | [] => .ok st
  | p :: rest =>
    match processPoint M wavelength entries volume isHex st p with
    | .error e => .error e
    | .ok st2 => runPoints M wavelength entries volume isHex st2 rest

/-- The pure fold computed by `runPoints` (which, as proved below, never
raises: skipped points are ignored and surviving points always satisfy the
`asin` domain condition). -/
def stepAll (M : MathFns K) (wavelength : K) (entries : List (ScatterEntry K))
    (volume : K) (isHex : Bool) (st : LoopState K) (p : (ℤ × ℤ × ℤ) × K) :
    LoopState K :=
  if pointSkipped wavelength p.2 then st
  else stepKeep M wavelength entries volume isHex st p

/-- Lines 218-222: empty peak dict, empty `two_thetas`, and the feature
list seeded with the origin row
`[0, 0, 0, float(total_electrons/volume)**2]`. -/
def initState (totalElectrons : ℕ) (volume : K) : LoopState K :=
  ⟨[], [], [(0, 0, 0, ((totalElectrons : K) / volume) ^ 2)]⟩

/-- The final loop state of `get_pattern` on a list of reciprocal points. -/
def finalLoopState (M : MathFns K) (wavelength : K) (entries : List (ScatterEntry K))
    (volume : K) (isHex : Bool) (pts : List ((ℤ × ℤ × ℤ) × K)) : LoopState K :=
  (sortPts pts).foldl (stepAll M wavelength entries volume isHex)
    (initState ((entries.map (·.z)).sum) volume)

/-- Line 293: `max([v[0] for v in peaks.values()])`, a `ValueError` on an
empty peak dict. -/
def maxIntensityOf : List (K × PeakData K) → Except PyErr K
  | [] => .error errEmptyMax
  | e :: rest => .ok ((rest.map fun q => q.2.intensity).foldl max e.2.intensity)

/-- `np.max` over a list (`0` on the empty list, which the callers below
never hit). -/
def npMax (l : List K) : K := l.foldl max (l.headD 0)

/-- Modelled from the spec: pymatgen's `DiffractionPattern.normalize(mode="max", value=100)`
(line 309) is library code outside this repository; per the spec it rescales
the pattern so that the maximum peak intensity equals 100. -/
def normalizeMax100 (p : DiffPattern K) : DiffPattern K :=
  ⟨p.x, p.y.map fun v => v / npMax p.y * 100, p.hkls, p.dHkls⟩

/-- Python dict lookup `peaks[k]` on the association list. -/
def lookupPeak (peaks : List (K × PeakData K)) (k : K) : Option (PeakData K) :=
  (peaks.find? fun e => decide (e.1 = k)).map (·.2)

/-- Lines 294-307: iterate over `sorted(peaks.keys())`, drop the peaks whose
scaled intensity does not exceed `scaledIntensityTol`, and collect `x`
(`two_theta`), `y` (unscaled intensity), the unique families, and the
d-spacings. -/
def buildPattern (uniqueFamilies : List (List ℤ) → List (List ℤ × ℕ))
    (peaks : List (K × PeakData K)) (maxIntensity : K) : DiffPattern K :=
  let ks := (peaks.map (·.1)).mergeSort (fun a b => decide (a ≤ b))
  let kept := ks.filter fun k =>
    decide (scaledIntensityTol <
      ((lookupPeak peaks k).getD ⟨0, [], 0⟩).intensity / maxIntensity * 100)
  ⟨kept,
   kept.map fun k => ((lookupPeak peaks k).getD ⟨0, [], 0⟩).intensity,
   kept.map fun k => uniqueFamilies ((lookupPeak peaks k).getD ⟨0, [], 0⟩).fams,
   kept.map fun k => ((lookupPeak peaks k).getD ⟨0, [], 0⟩).dHkl⟩

/-- Lines 165-172: the `(min_r, max_r)` sphere bounds.  With
`two_theta_range=None` this is `(0, 2/wavelength)`; a zero wavelength makes
the Python float division raise `ZeroDivisionError`. -/
def sphereRange (M : MathFns K) (wavelength : K) :
    Option (K × K) → Except PyErr (K × K)
  | none =>
    if wavelength = 0 then .error .zeroDivisionError
    else .ok ((0 : K), 2 / wavelength)
  | some r =>
    if wavelength = 0 then .error .zeroDivisionError
    else .ok (2 * M.sin (radians M (r.1 / 2)) / wavelength,
              2 * M.sin (radians M (r.2 / 2)) / wavelength)

/-- `XRDSimulator.get_pattern` (lines 134-311).  The `symprec == 0`,
`two_theta_range == None` and occupancy assertions of the source are wrapped
in `try/except print` and hence do not alter control flow; `structure`
refinement happens only for `symprec ≠ 0`.  Returns the
`(pattern, recip_latt.matrix, features)` triple or the raised exception. -/
def getPattern (M : MathFns K) (E : Ext K) (wavelength symprec : K)
    (s0 : XStructure K) (scaleIntensity : Bool) (twoThetaRange : Option (K × K)) :
    Except PyErr (XRDResult K) :=
  let s := if symprec ≠ 0 then E.refine s0 else s0
  match sphereRange M wavelength twoThetaRange with
  | .error e => .error e
  | .ok mm =>
    let recipPts0 := s.pointsInSphere mm.2
    let recipPts :=
      if mm.1 ≠ 0 then recipPts0.filter (fun p => decide (mm.1 ≤ p.2)) else recipPts0
    match buildScatteringData E.tbl s.sites with
    | .error e => .error e
    | .ok entries =>
      match runPoints M wavelength entries s.volume s.isHexagonal
          (initState ((entries.map (·.z)).sum) s.volume) (sortPts recipPts) with
      | .error e => .error e
      | .ok finalSt =>
        match maxIntensityOf finalSt.peaks with
        | .error e => .error e
        | .ok maxI =>
          let xrd := buildPattern E.uniqueFamilies finalSt.peaks maxI
          .ok ⟨if scaleIntensity then normalizeMax100 xrd else xrd,
               s.recipMatrix, finalSt.features⟩

/-- The surviving reciprocal points of a full-sphere run: the sorted
enumeration inside the limiting sphere of radius `2/wavelength`, with the
points of line 227 removed. -/
def survivingPoints (wavelength : K) (s : XStructure K) :
    List ((ℤ × ℤ × ℤ) × K) :=
  (sortPts (s.pointsInSphere (2 / wavelength))).filter
    fun p => !pointSkipped wavelength p.2

/-- Replace the `is_hexagonal` flag of a structure. -/
def setHex (s : XStructure K) (b : Bool) : XStructure K :=
  ⟨s.sites, s.volume, b, s.recipMatrix, s.pointsInSphere⟩

/-- The genuine real-valued mathematical routines of the Python runtime. -/
noncomputable def realM : MathFns ℝ :=
  ⟨Real.sin, Real.cos, Real.arcsin, Real.exp, Real.pi⟩

/-- Computable rational stand-ins for the mathematical routines, used to
evaluate the embedding on concrete inputs. -/
def ratM : MathFns ℚ := ⟨fun _ => 1, fun _ => 1, fun x => x, fun _ => 1, 3⟩

/-- A concrete one-species site (hydrogen at the origin, occupancy 1). -/
def wSite : Site ℚ := ⟨[(⟨1, "H"⟩, 1)], (0, 0, 0)⟩

/-- A concrete scattering table defining only hydrogen. -/
def wTbl : String → Option (List (ℚ × ℚ)) :=
  fun sym => if sym = "H" then some [(0, 0), (0, 0), (0, 0), (0, 0)] else none

/-- Concrete external collaborators for evaluation runs. -/
def wExt : Ext ℚ := ⟨wTbl, fun s => s, fun fams => fams.map (fun t => (t, 1))⟩

/-- A concrete structure whose enumerator returns the single point
`(1,0,0)` at distance 1. -/
def wStruct : XStructure ℚ := ⟨[wSite], 1, false, [], fun _ => [((1, 0, 0), 1)]⟩

/-- The same structure flagged hexagonal. -/
def wStructHex : XStructure ℚ := ⟨[wSite], 1, true, [], fun _ => [((1, 0, 0), 1)]⟩

/-- A concrete structure whose only enumerated point lies outside the
limiting sphere for wavelength 1 (distance 5 > 2). -/
def wStructFar : XStructure ℚ := ⟨[wSite], 1, false, [], fun _ => [((3, 3, 3), 5)]⟩

/-- A site whose species symbol has no scattering-table entry. -/
def wSiteX : Site ℚ := ⟨[(⟨104, "Rf"⟩, 1)], (0, 0, 0)⟩

/-- A concrete scattering entry over the reals: `Z = 42` with the single
coefficient pair `(1, 0)`, occupancy 1. -/
noncomputable def w7Entry : ScatterEntry ℝ := ⟨42, [(1, 0)], (0, 0, 0), 1⟩

/-- The flattened scattering rows of `wStruct` under `wTbl`. -/
def wEntries : List (ScatterEntry ℚ) := [⟨1, [(0, 0), (0, 0), (0, 0), (0, 0)], (0, 0, 0), 1⟩]

/-- The result of `getPattern` on `wStruct` with the rational stand-in
mathematical functions, wavelength 1 and no intensity scaling. -/
def wOut : XRDResult ℚ :=
  ⟨⟨[60], [4], [[([1, 0, 0], 1)]], [1]⟩, [], [(0, 0, 0, 1), (1, 0, 0, 2)]⟩

theorem absOneHalf : |(1 : ℚ) / 2| = 1 / 2 := by
  rw [abs_of_pos]
  norm_num

theorem pointSkipped_eq_false_iff {w g : K} :
    pointSkipped w g = false ↔ 1 / 10000 ≤ g ∧ g ≤ 2 / w := by
  simp [pointSkipped, Bool.or_eq_false_iff, decide_eq_false_iff_not, not_lt]

theorem survivor_wavelength_pos {w g : K} (h : pointSkipped w g = false) : 0 < w := by
  rcases pointSkipped_eq_false_iff.mp h with ⟨h1, h2⟩
  have hg : (0 : K) < g := lt_of_lt_of_le (by positivity) h1
  have h2w : (0 : K) < 2 / w := lt_of_lt_of_le hg h2
  rcases div_pos_iff.mp h2w with ⟨-, hw⟩ | ⟨h2neg, -⟩
  · exact hw
  · norm_num at h2neg

theorem survivor_domain {w g : K} (h : pointSkipped w g = false) :
    ¬ 1 < |w * g / 2| := by
  rcases pointSkipped_eq_false_iff.mp h with ⟨h1, h2⟩
  have hw := survivor_wavelength_pos h
  have hg : (0 : K) < g := lt_of_lt_of_le (by positivity) h1
  rw [le_div_iff₀ hw] at h2
  have h0 : 0 ≤ w * g / 2 := by positivity
  rw [abs_of_nonneg h0, not_lt]
  linarith

theorem runPoints_eq_ok (M : MathFns K) (w : K) (entries : List (ScatterEntry K))
    (V : K) (hex : Bool) (pts : List ((ℤ × ℤ × ℤ) × K)) :
    ∀ st : LoopState K,
      runPoints M w entries V hex st pts =
        .ok (pts.foldl (stepAll M w entries V hex) st) := by
  induction pts with
  | nil => intro st; rfl
  | cons p rest ih =>
    intro st
    by_cases hs : pointSkipped w p.2 = true
    · simp [runPoints, processPoint, hs, stepAll, ih]
    · have hs' : pointSkipped w p.2 = false := by simpa using hs
      simp [runPoints, processPoint, hs', survivor_domain hs', stepAll, ih]

theorem foldl_features (M : MathFns K) (w : K) (entries : List (ScatterEntry K))
    (V : K) (hex : Bool) (pts : List ((ℤ × ℤ × ℤ) × K)) :
    ∀ st : LoopState K,
      (pts.foldl (stepAll M w entries V hex) st).features =
        st.features ++
          (pts.filter fun p => !pointSkipped w p.2).map (featureRow M entries V) := by
  induction pts with
  | nil => intro st; simp
  | cons p rest ih =>
    intro st
    by_cases hs : pointSkipped w p.2 = true
    · simp [List.foldl_cons, stepAll, hs, ih, List.filter_cons]
    · have hs' : pointSkipped w p.2 = false := by simpa using hs
      simp [List.foldl_cons, stepAll, hs', ih, stepKeep, List.filter_cons]

theorem updateAssoc_length (peaks : List (K × PeakData K)) (k : K)
    (f : PeakData K → PeakData K) :
    (updateAssoc peaks k f).length = peaks.length := by
  induction peaks with
  | nil => rfl
  | cons e rest ih =>
    by_cases h : e.1 = k <;> simp [updateAssoc, h, ih]

theorem stepKeep_inv (M : MathFns K) (w : K) (entries : List (ScatterEntry K))
    (V : K) (hex : Bool) (st : LoopState K) (p : (ℤ × ℤ × ℤ) × K)
    (hinv : st.peaks.length = st.twoThetas.length) :
    (stepKeep M w entries V hex st p).peaks.length =
      (stepKeep M w entries V hex st p).twoThetas.length := by
  unfold stepKeep recordPeak
  cases hf : st.twoThetas.findIdx?
      (fun t => decide (|t - degrees M (2 * M.asin (w * p.2 / 2))| < twoThetaTol)) with
  | none => simp [hf, hinv]
  | some i => simp [hf, updateAssoc_length, hinv]

theorem stepAll_inv (M : MathFns K) (w : K) (entries : List (ScatterEntry K))
    (V : K) (hex : Bool) (st : LoopState K) (p : (ℤ × ℤ × ℤ) × K)
    (hinv : st.peaks.length = st.twoThetas.length) :
    (stepAll M w entries V hex st p).peaks.length =
      (stepAll M w entries V hex st p).twoThetas.length := by
  unfold stepAll
  by_cases hs : pointSkipped w p.2 = true
  · simpa [hs] using hinv
  · have hs' : pointSkipped w p.2 = false := by simpa using hs
    simpa [hs'] using stepKeep_inv M w entries V hex st p hinv

theorem stepKeep_peaks_ne (M : MathFns K) (w : K) (entries : List (ScatterEntry K))
    (V : K) (hex : Bool) (st : LoopState K) (p : (ℤ × ℤ × ℤ) × K)
    (hinv : st.peaks.length = st.twoThetas.length) :
    (stepKeep M w entries V hex st p).peaks ≠ [] := by
  unfold stepKeep recordPeak
  rcases hpk : st.peaks with - | ⟨e, rest⟩
  · have htts : st.twoThetas = [] := by
      apply List.eq_nil_of_length_eq_zero
      rw [← hinv, hpk]
      rfl
    simp [htts, hpk]
  · cases hf : st.twoThetas.findIdx?
        (fun t => decide (|t - degrees M (2 * M.asin (w * p.2 / 2))| < twoThetaTol)) with
    | none => simp [hf]
    | some i =>
      simp only [hf]
      intro hcon
      have hlen := congrArg List.length hcon
      rw [updateAssoc_length] at hlen
      simp at hlen

theorem stepAll_peaks_ne (M : MathFns K) (w : K) (entries : List (ScatterEntry K))
    (V : K) (hex : Bool) (st : LoopState K) (p : (ℤ × ℤ × ℤ) × K)
    (hne : st.peaks ≠ []) (hinv : st.peaks.length = st.twoThetas.length) :
    (stepAll M w entries V hex st p).peaks ≠ [] := by
  unfold stepAll
  by_cases hs : pointSkipped w p.2 = true
  · simpa [hs] using hne
  · have hs' : pointSkipped w p.2 = false := by simpa using hs
    simpa [hs'] using stepKeep_peaks_ne M w entries V hex st p hinv

theorem foldl_peaks_ne_of_ne (M : MathFns K) (w : K) (entries : List (ScatterEntry K))
    (V : K) (hex : Bool) (pts : List ((ℤ × ℤ × ℤ) × K)) :
    ∀ st : LoopState K, st.peaks ≠ [] → st.peaks.length = st.twoThetas.length →
      (pts.foldl (stepAll M w entries V hex) st).peaks ≠ [] := by
  induction pts with
  | nil => intro st hne _; simpa using hne
  | cons p rest ih =>
    intro st hne hinv
    exact ih _ (stepAll_peaks_ne M w entries V hex st p hne hinv)
      (stepAll_inv M w entries V hex st p hinv)

theorem foldl_peaks_ne (M : MathFns K) (w : K) (entries : List (ScatterEntry K))
    (V : K) (hex : Bool) (pts : List ((ℤ × ℤ × ℤ) × K)) :
    ∀ st : LoopState K, st.peaks.length = st.twoThetas.length →
      (pts.filter fun p => !pointSkipped w p.2) ≠ [] →
      (pts.foldl (stepAll M w entries V hex) st).peaks ≠ [] := by
  induction pts with
  | nil => intro st _ h; simp at h
  | cons p rest ih =>
    intro st hinv h
    by_cases hs : pointSkipped w p.2 = true
    · have hfil : (rest.filter fun q => !pointSkipped w q.2) ≠ [] := by
        simpa [List.filter_cons, hs] using h
      simpa [List.foldl_cons, stepAll, hs] using ih st hinv hfil
    · have hs' : pointSkipped w p.2 = false := by simpa using hs
      have h1 : (stepAll M w entries V hex st p).peaks ≠ [] := by
        simpa [stepAll, hs'] using stepKeep_peaks_ne M w entries V hex st p hinv
      exact foldl_peaks_ne_of_ne M w entries V hex rest _ h1
        (stepAll_inv M w entries V hex st p hinv)

theorem foldl_all_skipped (M : MathFns K) (w : K) (entries : List (ScatterEntry K))
    (V : K) (hex : Bool) (pts : List ((ℤ × ℤ × ℤ) × K)) :
    ∀ st : LoopState K, (∀ p ∈ pts, pointSkipped w p.2 = true) →
      pts.foldl (stepAll M w entries V hex) st = st := by
  induction pts with
  | nil => intro st _; rfl
  | cons p rest ih =>
    intro st h
    have hp := h p (by simp)
    have hrest : ∀ q ∈ rest, pointSkipped w q.2 = true := fun q hq => h q (by simp [hq])
    simp [List.foldl_cons, stepAll, hp, ih st hrest]

theorem pointSkipped_of_neg {w : K} (hw : w < 0) (g : K) :
    pointSkipped w g = true := by
  unfold pointSkipped
  simp only [Bool.or_eq_true, decide_eq_true_eq]
  rcases lt_or_le g (1 / 10000) with h | h
  · exact Or.inl h
  · refine Or.inr ?_
    have h2 : 2 / w < 0 := div_neg_of_pos_of_neg (by norm_num) hw
    exact lt_of_lt_of_le h2 (le_trans (by positivity) h)

theorem getPattern_ok_form (M : MathFns K) (E : Ext K) (w : K) (s : XStructure K)
    (sc : Bool) (entries : List (ScatterEntry K)) (hw : w ≠ 0)
    (hB : buildScatteringData E.tbl s.sites = .ok entries) :
    getPattern M E w 0 s sc none =
      match maxIntensityOf (finalLoopState M w entries s.volume s.isHexagonal
          (s.pointsInSphere (2 / w))).peaks with
      | .error e => .error e
      | .ok maxI =>
        .ok ⟨if sc then
              normalizeMax100 (buildPattern E.uniqueFamilies
                (finalLoopState M w entries s.volume s.isHexagonal
                  (s.pointsInSphere (2 / w))).peaks maxI)
            else
              buildPattern E.uniqueFamilies
                (finalLoopState M w entries s.volume s.isHexagonal
                  (s.pointsInSphere (2 / w))).peaks maxI,
          s.recipMatrix,
          (finalLoopState M w entries s.volume s.isHexagonal
            (s.pointsInSphere (2 / w))).features⟩ := by
  unfold getPattern sphereRange finalLoopState
  simp [hw, hB, runPoints_eq_ok]

theorem getPattern_build_error (M : MathFns K) (E : Ext K) (w : K) (s : XStructure K)
    (sc : Bool) (e : PyErr) (hw : w ≠ 0)
    (hB : buildScatteringData E.tbl s.sites = .error e) :
    getPattern M E w 0 s sc none = .error e := by
  unfold getPattern sphereRange
  simp [hw, hB]

theorem getPattern_ok_inv (M : MathFns K) (E : Ext K) (w : K) (s : XStructure K)
    (sc : Bool) (out : XRDResult K)
    (h : getPattern M E w 0 s sc none = .ok out) :
    ∃ entries maxI, w ≠ 0 ∧
      buildScatteringData E.tbl s.sites = .ok entries ∧
      maxIntensityOf (finalLoopState M w entries s.volume s.isHexagonal
        (s.pointsInSphere (2 / w))).peaks = .ok maxI ∧
      out = ⟨if sc then
              normalizeMax100 (buildPattern E.uniqueFamilies
                (finalLoopState M w entries s.volume s.isHexagonal
                  (s.pointsInSphere (2 / w))).peaks maxI)
            else
              buildPattern E.uniqueFamilies
                (finalLoopState M w entries s.volume s.isHexagonal
                  (s.pointsInSphere (2 / w))).peaks maxI,
          s.recipMatrix,
          (finalLoopState M w entries s.volume s.isHexagonal
            (s.pointsInSphere (2 / w))).features⟩ := by
  by_cases hw : w = 0
  · rw [hw] at h
    unfold getPattern sphereRange at h
    simp at h
  cases hB : buildScatteringData E.tbl s.sites with
  | error e => rw [getPattern_build_error M E w s sc e hw hB] at h; simp at h
  | ok entries =>
    rw [getPattern_ok_form M E w s sc entries hw hB] at h
    cases hm : maxIntensityOf (finalLoopState M w entries s.volume s.isHexagonal
        (s.pointsInSphere (2 / w))).peaks with
    | error e => rw [hm] at h; simp at h
    | ok maxI =>
      rw [hm] at h
      exact ⟨entries, maxI, hw, rfl, hm, (Except.ok.inj h).symm⟩

theorem maxIntensityOf_ne (peaks : List (K × PeakData K)) (h : peaks ≠ []) :
    ∃ m, maxIntensityOf peaks = .ok m := by
  cases peaks with
  | nil => exact absurd rfl h
  | cons e rest => exact ⟨_, rfl⟩

theorem foldl_max_mul (c : K) (hc : 0 ≤ c) (l : List K) :
    ∀ init : K, (l.map fun v => v * c).foldl max (init * c) = l.foldl max init * c := by
  induction l with
  | nil => intro init; rfl
  | cons a t ih =>
    intro init
    simp only [List.map_cons, List.foldl_cons]
    rw [← max_mul_of_nonneg _ _ hc, ih]

theorem npMax_map_mul (c : K) (hc : 0 ≤ c) (l : List K) :
    npMax (l.map fun v => v * c) = npMax l * c := by
  cases l with
  | nil => simp [npMax]
  | cons a t =>
    simp only [npMax, List.map_cons, List.headD_cons, List.foldl_cons, max_self]
    exact foldl_max_mul c hc t a

theorem getPattern_scale_rel (M : MathFns K) (E : Ext K) (w : K) (s : XStructure K) :
    getPattern M E w 0 s true none =
      (getPattern M E w 0 s false none).map
        (fun o => ⟨normalizeMax100 o.pattern, o.recipMatrix, o.features⟩) := by
  by_cases hw : w = 0
  · subst hw
    unfold getPattern sphereRange
    simp [Except.map]
  cases hB : buildScatteringData E.tbl s.sites with
  | error e =>
    rw [getPattern_build_error M E w s true e hw hB,
      getPattern_build_error M E w s false e hw hB]
    rfl
  | ok entries =>
    rw [getPattern_ok_form M E w s true entries hw hB,
      getPattern_ok_form M E w s false entries hw hB]
    cases hm : maxIntensityOf (finalLoopState M w entries s.volume s.isHexagonal
        (s.pointsInSphere (2 / w))).peaks with
    | error e => rfl
    | ok maxI => rfl

theorem findIdx?_some_mem {α : Type} (p : α → Bool) (l : List α) (i : ℕ)
    (h : l.findIdx? p = some i) : ∃ x ∈ l, p x = true := by
  by_contra hcon
  push_neg at hcon
  have hn : l.findIdx? p = none :=
    List.findIdx?_eq_none_iff.mpr fun x hx => by simpa using hcon x hx
  rw [hn] at h
  simp at h

theorem lookupPeak_updateAssoc (k : K) (f : PeakData K → PeakData K) :
    ∀ peaks : List (K × PeakData K),
      lookupPeak (updateAssoc peaks k f) k = (lookupPeak peaks k).map f := by
  intro peaks
  induction peaks with
  | nil => rfl
  | cons e rest ih =>
    by_cases h : e.1 = k
    · simp [updateAssoc, h, lookupPeak, List.find?_cons, decide_eq_true_eq]
    · simpa [updateAssoc, h, lookupPeak, List.find?_cons, decide_eq_true_eq] using ih

/-- C3: a reflection merges into an existing peak exactly when some stored
2-theta is within `twoThetaTol` of its own; on a merge the first such peak's
intensity grows by `i_hkl` times the Lorentz factor `P(theta)`, the index
tuple is appended to its family list, and its d-spacing is unchanged;
otherwise a brand-new peak is created carrying the reflection's d-spacing. -/
theorem claim3_peak_merge (M : MathFns K) (peaks : List (K × PeakData K))
    (tts : List K) (twoTheta theta iH : K) (tup : List ℤ) (d : K) :
    (((recordPeak twoTheta iH (lorentzFactor M theta) tup d peaks tts).2 = tts) ↔
      ∃ t ∈ tts, |t - twoTheta| < twoThetaTol)
    ∧ (∀ i, tts.findIdx? (fun t => decide (|t - twoTheta| < twoThetaTol)) = some i →
        (recordPeak twoTheta iH (lorentzFactor M theta) tup d peaks tts).2 = tts ∧
        ∀ v, lookupPeak peaks (tts.getD i 0) = some v →
          lookupPeak (recordPeak twoTheta iH (lorentzFactor M theta) tup d peaks tts).1
              (tts.getD i 0) =
            some ⟨v.intensity + iH * lorentzFactor M theta, v.fams ++ [tup], v.dHkl⟩)
    ∧ ((∀ t ∈ tts, ¬ |t - twoTheta| < twoThetaTol) →
        recordPeak twoTheta iH (lorentzFactor M theta) tup d peaks tts =
          (peaks ++ [(twoTheta, ⟨iH * lorentzFactor M theta, [tup], d⟩)],
           tts ++ [twoTheta])) := by
  refine ⟨?_, ?_, ?_⟩
  · unfold recordPeak
    cases hf : tts.findIdx? (fun t => decide (|t - twoTheta| < twoThetaTol)) with
    | some i =>
      simp only [hf]
      have hmem := findIdx?_some_mem _ _ _ hf
      rcases hmem with ⟨t, ht, hpt⟩
      exact iff_of_true trivial ⟨t, ht, by simpa using hpt⟩
    | none =>
      simp only [hf]
      constructor
      · intro hcon
        have := congrArg List.length hcon
        simp at this
      · intro ⟨t, ht, hpt⟩
        have := List.findIdx?_eq_none_iff.mp hf t ht
        simp [hpt] at this
  · intro i hf
    unfold recordPeak
    simp only [hf]
    refine ⟨trivial, fun v hv => ?_⟩
    rw [lookupPeak_updateAssoc, hv]
    rfl
  · intro hall
    have hf : tts.findIdx? (fun t => decide (|t - twoTheta| < twoThetaTol)) = none :=
      List.findIdx?_eq_none_iff.mpr fun t ht => by simpa using hall t ht
    unfold recordPeak
    simp only [hf]

theorem speciesEntries_error_inv (tbl : String → Option (List (K × K)))
    (fc : K × K × K) :
    ∀ (l : List (Species × K)) (e : PyErr), speciesEntries tbl fc l = .error e →
      ∃ sym, tbl sym = none ∧ (∃ q ∈ l, q.1.symbol = sym) ∧ e = errNoCoeff sym := by
  intro l
  induction l with
  | nil => intro e h; simp [speciesEntries] at h
  | cons q rest ih =>
    intro e h
    rw [speciesEntries] at h
    cases htbl : tbl q.1.symbol with
    | none =>
      rw [htbl] at h
      exact ⟨q.1.symbol, htbl, ⟨q, by simp, rfl⟩, (Except.error.inj h).symm⟩
    | some c =>
      rw [htbl] at h
      cases hrec : speciesEntries tbl fc rest with
      | error e2 =>
        rw [hrec] at h
        rcases ih e2 hrec with ⟨sym, h1, ⟨q2, hq2, h2⟩, h3⟩
        exact ⟨sym, h1, ⟨q2, by simp [hq2], h2⟩, (Except.error.inj h).symm.trans h3⟩
      | ok es => rw [hrec] at h; simp at h

theorem speciesEntries_ok_mem (tbl : String → Option (List (K × K)))
    (fc : K × K × K) :
    ∀ (l : List (Species × K)) entries, speciesEntries tbl fc l = .ok entries →
      ∀ q ∈ l, ∃ c, tbl q.1.symbol = some c ∧
        (⟨q.1.Z, c, fc, q.2⟩ : ScatterEntry K) ∈ entries := by
  intro l
  induction l with
  | nil => intro entries _ q hq; simp at hq
  | cons q0 rest ih =>
    intro entries h q hq
    rw [speciesEntries] at h
    cases htbl : tbl q0.1.symbol with
    | none => rw [htbl] at h; simp at h
    | some c0 =>
      rw [htbl] at h
      cases hrec : speciesEntries tbl fc rest with
      | error e2 => rw [hrec] at h; simp at h
      | ok es =>
        rw [hrec] at h
        have hent : entries = ⟨q0.1.Z, c0, fc, q0.2⟩ :: es := (Except.ok.inj h).symm
        rcases List.mem_cons.mp hq with hq0 | hqr
        · subst hq0
          exact ⟨c0, htbl, by simp [hent]⟩
        · rcases ih es hrec q hqr with ⟨c, hc, hmem⟩
          exact ⟨c, hc, by simp [hent, hmem]⟩

theorem speciesEntries_missing (tbl : String → Option (List (K × K)))
    (fc : K × K × K) :
    ∀ l : List (Species × K), (∃ q ∈ l, tbl q.1.symbol = none) →
      ∃ sym, tbl sym = none ∧ (∃ q ∈ l, q.1.symbol = sym) ∧
        speciesEntries tbl fc l = .error (errNoCoeff sym) := by
  intro l
  induction l with
  | nil => rintro ⟨q, hq, -⟩; simp at hq
  | cons q0 rest ih =>
    rintro ⟨q, hq, hmiss⟩
    cases htbl : tbl q0.1.symbol with
    | none =>
      exact ⟨q0.1.symbol, htbl, ⟨q0, by simp, rfl⟩, by rw [speciesEntries, htbl]⟩
    | some c0 =>
      have hqr : q ∈ rest := by
        rcases List.mem_cons.mp hq with h0 | hr
        · subst h0; rw [htbl] at hmiss; simp at hmiss
        · exact hr
      rcases ih ⟨q, hqr, hmiss⟩ with ⟨sym, h1, ⟨q2, hq2, h2⟩, h3⟩
      refine ⟨sym, h1, ⟨q2, by simp [hq2], h2⟩, ?_⟩
      rw [speciesEntries, htbl, h3]

theorem buildScatteringData_missing (tbl : String → Option (List (K × K))) :
    ∀ sites : List (Site K),
      (∃ site ∈ sites, ∃ q ∈ site.species, tbl q.1.symbol = none) →
      ∃ sym, tbl sym = none ∧
        (∃ site ∈ sites, ∃ q ∈ site.species, q.1.symbol = sym) ∧
        buildScatteringData tbl sites = .error (errNoCoeff sym) := by
  intro sites
  induction sites with
  | nil => rintro ⟨site, hs, -⟩; simp at hs
  | cons s0 rest ih =>
    rintro ⟨site, hs, q, hq, hmiss⟩
    cases hse : siteEntries tbl s0 with
    | error e =>
      rcases speciesEntries_error_inv tbl s0.fracCoords s0.species e hse with
        ⟨sym, h1, ⟨q2, hq2, h2⟩, h3⟩
      refine ⟨sym, h1, ⟨s0, by simp, q2, hq2, h2⟩, ?_⟩
      rw [buildScatteringData, hse, h3]
    | ok es =>
      have hsr : site ∈ rest := by
        rcases List.mem_cons.mp hs with h0 | hr
        · subst h0
          rcases speciesEntries_ok_mem tbl site.fracCoords site.species es hse q hq with
            ⟨c, hc, -⟩
          rw [hmiss] at hc
          simp at hc
        · exact hr
      rcases ih ⟨site, hsr, q, hq, hmiss⟩ with ⟨sym, h1, ⟨s2, hs2, hmem2⟩, h3⟩
      refine ⟨sym, h1, ⟨s2, by simp [hs2], hmem2⟩, ?_⟩
      rw [buildScatteringData, hse, h3]

theorem buildScatteringData_ok_mem (tbl : String → Option (List (K × K))) :
    ∀ (sites : List (Site K)) entries,
      buildScatteringData tbl sites = .ok entries →
      ∀ site ∈ sites, ∀ q ∈ site.species, ∃ c, tbl q.1.symbol = some c ∧
        (⟨q.1.Z, c, site.fracCoords, q.2⟩ : ScatterEntry K) ∈ entries := by
  intro sites
  induction sites with
  | nil => intro entries _ site hs; simp at hs
  | cons s0 rest ih =>
    intro entries h site hs q hq
    rw [buildScatteringData] at h
    cases hse : siteEntries tbl s0 with
    | error e => rw [hse] at h; simp at h
    | ok es =>
      rw [hse] at h
      cases hrec : buildScatteringData tbl rest with
      | error e => rw [hrec] at h; simp at h
      | ok more =>
        rw [hrec] at h
        have hent : entries = es ++ more := (Except.ok.inj h).symm
        rcases List.mem_cons.mp hs with h0 | hr
        · subst h0
          rcases speciesEntries_ok_mem tbl site.fracCoords site.species es hse q hq with
            ⟨c, hc, hmem⟩
          exact ⟨c, hc, by simp [hent, hmem]⟩
        · rcases ih more hrec site hr q hq with ⟨c, hc, hmem⟩
          exact ⟨c, hc, by simp [hent, hmem]⟩

/-- C8: if any species' element symbol is missing from the
scattering-coefficient table, building the flattened scattering arrays
raises the `ValueError` of lines 203-205 naming a missing element; and on
success every species was found in the table and contributes its own row,
so no site is silently skipped. -/
theorem claim8_missing_coeff (tbl : String → Option (List (K × K)))
    (sites : List (Site K)) :
    ((∃ site ∈ sites, ∃ q ∈ site.species, tbl q.1.symbol = none) →
      ∃ sym, tbl sym = none ∧
        (∃ site ∈ sites, ∃ q ∈ site.species, q.1.symbol = sym) ∧
        buildScatteringData tbl sites = .error (errNoCoeff sym))
    ∧ (∀ entries, buildScatteringData tbl sites = .ok entries →
        ∀ site ∈ sites, ∀ q ∈ site.species, ∃ c, tbl q.1.symbol = some c ∧
          (⟨q.1.Z, c, site.fracCoords, q.2⟩ : ScatterEntry K) ∈ entries) :=
  ⟨buildScatteringData_missing tbl sites,
   fun entries h => buildScatteringData_ok_mem tbl sites entries h⟩

/-- C10: when every enumerated reciprocal point is discarded by the filters
of line 227 (so the peak dict stays empty), `get_pattern` raises the
`ValueError` of Python's `max` over the empty peak collection at line 293,
rather than returning an empty pattern. -/
theorem claim10_empty_peaks (M : MathFns K) (E : Ext K) (w : K) (s : XStructure K)
    (sc : Bool) (entries : List (ScatterEntry K)) (hw : w ≠ 0)
    (hB : buildScatteringData E.tbl s.sites = .ok entries)
    (hAll : survivingPoints w s = []) :
    getPattern M E w 0 s sc none = .error errEmptyMax := by
  rw [getPattern_ok_form M E w s sc entries hw hB]
  have hskip : ∀ p ∈ sortPts (s.pointsInSphere (2 / w)), pointSkipped w p.2 = true := by
    intro p hp
    unfold survivingPoints at hAll
    have := List.filter_eq_nil_iff.mp hAll p hp
    simpa using this
  unfold finalLoopState
  rw [foldl_all_skipped M w entries s.volume s.isHexagonal _ _ hskip]
  rfl

/-- C9 (amended): a non-positive wavelength never yields a pattern, but not
through up-front input validation: wavelength 0 raises `ZeroDivisionError`
while computing the sphere radius `2/wavelength` (line 171, before any
enumeration), whereas a negative wavelength proceeds through enumeration
with every point discarded by the line-227 filter and the call fails only
at the empty-peak maximum of line 293. -/
theorem claim9_nonpositive_wavelength (M : MathFns K) (E : Ext K) (s : XStructure K)
    (sc : Bool) (w : K) (hw : w ≤ 0) :
    (w = 0 → getPattern M E w 0 s sc none = .error .zeroDivisionError)
    ∧ (w < 0 → ∀ entries, buildScatteringData E.tbl s.sites = .ok entries →
        getPattern M E w 0 s sc none = .error errEmptyMax)
    ∧ ∃ e, getPattern M E w 0 s sc none = .error e := by
  have part1 : w = 0 → getPattern M E w 0 s sc none = .error .zeroDivisionError := by
    intro h0
    subst h0
    unfold getPattern sphereRange
    simp
  have part2 : w < 0 → ∀ entries, buildScatteringData E.tbl s.sites = .ok entries →
      getPattern M E w 0 s sc none = .error errEmptyMax := by
    intro hneg entries hB
    rw [getPattern_ok_form M E w s sc entries (ne_of_lt hneg) hB]
    unfold finalLoopState
    rw [foldl_all_skipped M w entries s.volume s.isHexagonal _ _
      (fun p _ => pointSkipped_of_neg hneg p.2)]
    rfl
  refine ⟨part1, part2, ?_⟩
  rcases lt_or_eq_of_le hw with hneg | h0
  · cases hB : buildScatteringData E.tbl s.sites with
    | error e => exact ⟨e, getPattern_build_error M E w s sc e (ne_of_lt hneg) hB⟩
    | ok entries => exact ⟨errEmptyMax, part2 hneg entries hB⟩
  · exact ⟨.zeroDivisionError, part1 h0⟩

/-- C1 (code bug): the line-227 filter keeps a point exactly when
`1e-4 <= g <= 2/wavelength`; in particular a point exactly on the limiting
sphere (`g = 2/wavelength`, here `wavelength = 1`, `g = 2`) is NOT skipped,
contradicting the claim and the code's own comment at line 226, which says
points on the limiting sphere are to be skipped. -/
theorem claim1_boundary_filter :
    (∀ w g : K, pointSkipped w g = false ↔ 1 / 10000 ≤ g ∧ g ≤ 2 / w)
    ∧ pointSkipped (1 : ℚ) 2 = false := by
  constructor
  · intro w g
    exact pointSkipped_eq_false_iff
  · norm_num [pointSkipped]

theorem keyLE_trans (a b c : K × ℤ × ℤ × ℤ) (h1 : keyLE a b) (h2 : keyLE b c) :
    keyLE a c := by
  unfold keyLE at *
  rcases h1 with h1 | ⟨e1, h1⟩
  · rcases h2 with h2 | ⟨e2, h2⟩
    · exact Or.inl (h1.trans h2)
    · exact Or.inl (e2 ▸ h1)
  · rcases h2 with h2 | ⟨e2, h2⟩
    · exact Or.inl (e1.trans_lt h2)
    · refine Or.inr ⟨e1.trans e2, ?_⟩
      rcases h1 with h1 | ⟨f1, h1⟩
      · rcases h2 with h2 | ⟨f2, h2⟩
        · exact Or.inl (h1.trans h2)
        · exact Or.inl (f2 ▸ h1)
      · rcases h2 with h2 | ⟨f2, h2⟩
        · exact Or.inl (f1.trans_lt h2)
        · refine Or.inr ⟨f1.trans f2, ?_⟩
          rcases h1 with h1 | ⟨g1, h1⟩
          · rcases h2 with h2 | ⟨g2, h2⟩
            · exact Or.inl (h1.trans h2)
            · exact Or.inl (g2 ▸ h1)
          · rcases h2 with h2 | ⟨g2, h2⟩
            · exact Or.inl (g1.trans_lt h2)
            · exact Or.inr ⟨g1.trans g2, h1.trans h2⟩

theorem keyLE_total (a b : K × ℤ × ℤ × ℤ) : keyLE a b ∨ keyLE b a := by
  unfold keyLE
  rcases lt_trichotomy a.1 b.1 with h | h | h
  · exact Or.inl (Or.inl h)
  · rcases lt_trichotomy a.2.1 b.2.1 with h2 | h2 | h2
    · exact Or.inl (Or.inr ⟨h, Or.inl h2⟩)
    · rcases lt_trichotomy a.2.2.1 b.2.2.1 with h3 | h3 | h3
      · exact Or.inl (Or.inr ⟨h, Or.inr ⟨h2, Or.inl h3⟩⟩)
      · rcases le_total a.2.2.2 b.2.2.2 with h4 | h4
        · exact Or.inl (Or.inr ⟨h, Or.inr ⟨h2, Or.inr ⟨h3, h4⟩⟩⟩)
        · exact Or.inr (Or.inr ⟨h.symm, Or.inr ⟨h2.symm, Or.inr ⟨h3.symm, h4⟩⟩⟩)
      · exact Or.inr (Or.inr ⟨h.symm, Or.inr ⟨h2.symm, Or.inl h3⟩⟩)
    · exact Or.inr (Or.inr ⟨h.symm, Or.inl h2⟩)
  · exact Or.inr (Or.inl h)

theorem ptLE_trans (a b c : (ℤ × ℤ × ℤ) × K) (h1 : ptLE a b = true)
    (h2 : ptLE b c = true) : ptLE a c = true := by
  simp only [ptLE, decide_eq_true_eq] at *
  exact keyLE_trans _ _ _ h1 h2

theorem ptLE_total (a b : (ℤ × ℤ × ℤ) × K) : (ptLE a b || ptLE b a) = true := by
  simp only [ptLE, Bool.or_eq_true, decide_eq_true_eq]
  exact keyLE_total _ _

theorem sortPts_perm (pts : List ((ℤ × ℤ × ℤ) × K)) : (sortPts pts).Perm pts :=
  List.mergeSort_perm pts ptLE

theorem sortPts_sorted (pts : List ((ℤ × ℤ × ℤ) × K)) :
    (sortPts pts).Sorted (fun a b => keyLE (ptKey a) (ptKey b)) := by
  have h := @List.sorted_mergeSort ((ℤ × ℤ × ℤ) × K) ptLE ptLE_trans ptLE_total pts
  exact List.Pairwise.imp (fun hab => by simpa [ptLE] using hab) h

theorem survivingPoints_sorted (w : K) (s : XStructure K) :
    (survivingPoints w s).Sorted (fun a b => keyLE (ptKey a) (ptKey b)) := by
  unfold survivingPoints
  exact List.Pairwise.filter _ (sortPts_sorted _)

theorem buildPattern_x_sorted (guf : List (List ℤ) → List (List ℤ × ℕ))
    (peaks : List (K × PeakData K)) (m : K) :
    (buildPattern guf peaks m).x.Sorted (· ≤ ·) := by
  have h := @List.sorted_mergeSort K (fun a b : K => decide (a ≤ b))
    (fun a b c h1 h2 => by
      simp only [decide_eq_true_eq] at *
      exact le_trans h1 h2)
    (fun a b => by
      simp only [Bool.or_eq_true, decide_eq_true_eq]
      exact le_total a b)
    (peaks.map (·.1))
  have h2 : ((peaks.map (·.1)).mergeSort (fun a b : K => decide (a ≤ b))).Sorted
      (· ≤ ·) := List.Pairwise.imp (fun hab => by simpa using hab) h
  exact List.Pairwise.filter _ h2

/-- C2: whenever `get_pattern` succeeds, its feature list is exactly the
synthetic origin row `(0, 0, 0, (total electron count / volume)^2)` followed
by one row `(h, k, l, i_hkl / volume^2)` per surviving (unmerged, unfiltered,
non-Lorentz-corrected) reciprocal point, in processing order, independently
of the `scale_intensity` flag; for a single-species single-site structure
the origin intensity is `(Z / volume)^2`. -/
theorem claim2_feature_list (M : MathFns K) (E : Ext K) (w : K) (s : XStructure K)
    (sc : Bool) (entries : List (ScatterEntry K))
    (hB : buildScatteringData E.tbl s.sites = .ok entries)
    (hS : survivingPoints w s ≠ []) :
    ∃ out, getPattern M E w 0 s sc none = .ok out
      ∧ out.features =
          (0, 0, 0, ((((entries.map (·.z)).sum : ℕ) : K) / s.volume) ^ 2) ::
            (survivingPoints w s).map (featureRow M entries s.volume)
      ∧ (∀ site sp occu, s.sites = [site] → site.species = [(sp, occu)] →
          out.features.head? = some (0, 0, 0, ((sp.Z : K) / s.volume) ^ 2)) := by
  have hw : w ≠ 0 := by
    rcases List.exists_mem_of_ne_nil _ hS with ⟨p0, hp0⟩
    unfold survivingPoints at hp0
    have hmem := List.of_mem_filter hp0
    have hfalse : pointSkipped w p0.2 = false := by simpa using hmem
    exact ne_of_gt (survivor_wavelength_pos hfalse)
  have hfeat : (finalLoopState M w entries s.volume s.isHexagonal
      (s.pointsInSphere (2 / w))).features =
      (0, 0, 0, ((((entries.map (·.z)).sum : ℕ) : K) / s.volume) ^ 2) ::
        (survivingPoints w s).map (featureRow M entries s.volume) := by
    unfold finalLoopState survivingPoints
    rw [foldl_features]
    simp only [initState, List.singleton_append]
  have hpne : (finalLoopState M w entries s.volume s.isHexagonal
      (s.pointsInSphere (2 / w))).peaks ≠ [] := by
    unfold finalLoopState
    apply foldl_peaks_ne M w entries s.volume s.isHexagonal _ _ rfl
    unfold survivingPoints at hS
    exact hS
  rw [getPattern_ok_form M E w s sc entries hw hB]
  rcases maxIntensityOf_ne _ hpne with ⟨maxI, hm⟩
  simp only [hm]
  refine ⟨_, rfl, ?_, ?_⟩
  · show (finalLoopState M w entries s.volume s.isHexagonal
      (s.pointsInSphere (2 / w))).features = _
    exact hfeat
  · intro site sp occu h1 h2
    show ((finalLoopState M w entries s.volume s.isHexagonal
      (s.pointsInSphere (2 / w))).features).head? = _
    rw [hfeat]
    simp only [List.head?_cons, Option.some.injEq]
    have hz : (entries.map (·.z)).sum = sp.Z := by
      rw [h1] at hB
      cases hse : siteEntries E.tbl site with
      | error e => rw [buildScatteringData, hse] at hB; simp at hB
      | ok es =>
        rw [buildScatteringData, hse, buildScatteringData] at hB
        simp only [List.append_nil] at hB
        have hes : es = entries := Except.ok.inj hB
        unfold siteEntries at hse
        rw [h2] at hse
        rw [speciesEntries] at hse
        cases htbl : E.tbl sp.symbol with
        | none => rw [htbl] at hse; simp at hse
        | some c =>
          rw [htbl, speciesEntries] at hse
          have : [(⟨sp.Z, c, site.fracCoords, occu⟩ : ScatterEntry K)] = es :=
            Except.ok.inj hse
          rw [← hes, ← this]
          simp
    rw [hz]

/-- C5: the reciprocal points are processed in ascending order of the
Python sort key (magnitude `g` first, then the negated Miller indices as
tie-break); the sorted list is a permutation of the enumeration, the
surviving points inherit that order, and the merged peaks of a successful
pattern are output sorted by ascending 2-theta. -/
theorem claim5_ordering (M : MathFns K) (E : Ext K) (w : K) (s : XStructure K)
    (sc : Bool) (pts : List ((ℤ × ℤ × ℤ) × K)) :
    (sortPts pts).Perm pts
    ∧ (sortPts pts).Sorted (fun a b => keyLE (ptKey a) (ptKey b))
    ∧ (survivingPoints w s).Sorted (fun a b => keyLE (ptKey a) (ptKey b))
    ∧ ∀ out, getPattern M E w 0 s sc none = .ok out →
        out.pattern.x.Sorted (· ≤ ·) := by
  refine ⟨sortPts_perm pts, sortPts_sorted pts, survivingPoints_sorted w s, ?_⟩
  intro out hout
  rcases getPattern_ok_inv M E w s sc out hout with ⟨entries, maxI, -, -, -, hform⟩
  rw [hform]
  cases sc
  · simpa using buildPattern_x_sorted E.uniqueFamilies _ maxI
  · simpa [normalizeMax100] using buildPattern_x_sorted E.uniqueFamilies _ maxI

theorem exceptMapOk {ε α β : Type} (x : Except ε α) (f : α → β) (b : β) :
    x.map f = .ok b ↔ ∃ a, x = .ok a ∧ f a = b := by
  cases x <;> simp [Except.map]

/-- C4: with `scale_intensity=True` the returned pattern's intensities are
the unscaled ones multiplied by one common positive factor `100 / max`, the
maximum scaled intensity is exactly 100, and the scaling touches neither
the feature list nor the peak positions. -/
theorem claim4_intensity_scaling (M : MathFns K) (E : Ext K) (w : K)
    (s : XStructure K) (ys : List K)
    (h1 : (getPattern M E w 0 s false none).map (fun o => o.pattern.y) = .ok ys)
    (h2 : 0 < npMax ys) :
    ((getPattern M E w 0 s true none).map (fun o => o.pattern.y)
        = .ok (ys.map fun v => v * (100 / npMax ys)))
      ∧ npMax (ys.map fun v => v * (100 / npMax ys)) = 100
      ∧ 0 < 100 / npMax ys
      ∧ ((getPattern M E w 0 s true none).map (fun o => o.features)
          = (getPattern M E w 0 s false none).map (fun o => o.features))
      ∧ ((getPattern M E w 0 s true none).map (fun o => o.pattern.x)
          = (getPattern M E w 0 s false none).map (fun o => o.pattern.x)) := by
  rcases (exceptMapOk _ _ _).mp h1 with ⟨o, ho, hy⟩
  have hrel := getPattern_scale_rel M E w s
  have hm0 : npMax ys ≠ 0 := ne_of_gt h2
  have hdivpos : 0 < 100 / npMax ys := div_pos (by norm_num) h2
  refine ⟨?_, ?_, hdivpos, ?_, ?_⟩
  · rw [hrel, ho]
    have hptw : ∀ v : K, v / npMax ys * 100 = v * (100 / npMax ys) := fun v => by
      ring
    simp [Except.map, normalizeMax100, hy, hptw]
  · rw [npMax_map_mul _ (le_of_lt hdivpos) ys, mul_comm,
      div_mul_cancel₀ _ hm0]
  · rw [hrel, ho]
    simp [Except.map]
  · rw [hrel, ho]
    simp [Except.map, normalizeMax100]

theorem updateAssoc_strip (k : K) (f1 f2 : PeakData K → PeakData K)
    (hf : ∀ v1 v2 : PeakData K, v1.intensity = v2.intensity → v1.dHkl = v2.dHkl →
      (f1 v1).intensity = (f2 v2).intensity ∧ (f1 v1).dHkl = (f2 v2).dHkl) :
    ∀ p1 p2 : List (K × PeakData K),
      p1.map (fun e => (e.1, e.2.intensity, e.2.dHkl)) =
        p2.map (fun e => (e.1, e.2.intensity, e.2.dHkl)) →
      (updateAssoc p1 k f1).map (fun e => (e.1, e.2.intensity, e.2.dHkl)) =
        (updateAssoc p2 k f2).map (fun e => (e.1, e.2.intensity, e.2.dHkl)) := by
  intro p1
  induction p1 with
  | nil =>
    intro p2 h
    cases p2 with
    | nil => rfl
    | cons e2 t2 => simp at h
  | cons e1 t1 ih =>
    intro p2 h
    cases p2 with
    | nil => simp at h
    | cons e2 t2 =>
      simp only [List.map_cons, List.cons.injEq, Prod.mk.injEq] at h
      obtain ⟨⟨hk, hint, hd⟩, htail⟩ := h
      by_cases hke : e1.1 = k
      · have hke2 : e2.1 = k := by rw [← hk]; exact hke
        have hv := hf e1.2 e2.2 hint hd
        simp only [updateAssoc, if_pos hke, if_pos hke2, List.map_cons,
          List.cons.injEq, Prod.mk.injEq]
        exact ⟨⟨hk, hv.1, hv.2⟩, htail⟩
      · have hke2 : ¬ e2.1 = k := by rw [← hk]; exact hke
        simp only [updateAssoc, if_neg hke, if_neg hke2, List.map_cons,
          List.cons.injEq, Prod.mk.injEq]
        exact ⟨⟨hk, hint, hd⟩, ih t2 htail⟩

theorem recordPeak_strip (theta iH L : K) (tup1 tup2 : List ℤ) (d : K) (tts : List K)
    (p1 p2 : List (K × PeakData K))
    (h : p1.map (fun e => (e.1, e.2.intensity, e.2.dHkl)) =
      p2.map (fun e => (e.1, e.2.intensity, e.2.dHkl))) :
    (recordPeak theta iH L tup1 d p1 tts).1.map (fun e => (e.1, e.2.intensity, e.2.dHkl)) =
      (recordPeak theta iH L tup2 d p2 tts).1.map (fun e => (e.1, e.2.intensity, e.2.dHkl))
    ∧ (recordPeak theta iH L tup1 d p1 tts).2 = (recordPeak theta iH L tup2 d p2 tts).2 := by
  unfold recordPeak
  cases hf : tts.findIdx? (fun t => decide (|t - theta| < twoThetaTol)) with
  | some i =>
    simp only [hf]
    refine ⟨updateAssoc_strip _ _ _ ?_ p1 p2 h, trivial⟩
    intro v1 v2 hi hd
    constructor
    · simp [hi]
    · simp [hd]
  | none =>
    simp only [hf]
    refine ⟨?_, trivial⟩
    simp only [List.map_append, List.map_cons, List.map_nil]
    rw [h]

theorem stepKeep_strip (M : MathFns K) (w : K) (entries : List (ScatterEntry K))
    (V : K) (hex1 hex2 : Bool) (p : (ℤ × ℤ × ℤ) × K) (st1 st2 : LoopState K)
    (hfe : st1.features = st2.features) (htt : st1.twoThetas = st2.twoThetas)
    (hpk : st1.peaks.map (fun e => (e.1, e.2.intensity, e.2.dHkl)) =
      st2.peaks.map (fun e => (e.1, e.2.intensity, e.2.dHkl))) :
    (stepKeep M w entries V hex1 st1 p).features =
      (stepKeep M w entries V hex2 st2 p).features
    ∧ (stepKeep M w entries V hex1 st1 p).twoThetas =
      (stepKeep M w entries V hex2 st2 p).twoThetas
    ∧ (stepKeep M w entries V hex1 st1 p).peaks.map
        (fun e => (e.1, e.2.intensity, e.2.dHkl)) =
      (stepKeep M w entries V hex2 st2 p).peaks.map
        (fun e => (e.1, e.2.intensity, e.2.dHkl)) := by
  have hrp := recordPeak_strip (degrees M (2 * M.asin (w * p.2 / 2)))
    (iHkl M entries p.1 p.2) (lorentzFactor M (M.asin (w * p.2 / 2)))
    (hklTuple hex1 p.1) (hklTuple hex2 p.1) (1 / p.2) st2.twoThetas
    st1.peaks st2.peaks hpk
  refine ⟨?_, ?_, ?_⟩
  · show st1.features ++ [featureRow M entries V p] =
      st2.features ++ [featureRow M entries V p]
    rw [hfe]
  · show (recordPeak (degrees M (2 * M.asin (w * p.2 / 2))) (iHkl M entries p.1 p.2)
        (lorentzFactor M (M.asin (w * p.2 / 2))) (hklTuple hex1 p.1) (1 / p.2)
        st1.peaks st1.twoThetas).2 = _
    rw [htt]
    exact hrp.2
  · show (recordPeak (degrees M (2 * M.asin (w * p.2 / 2))) (iHkl M entries p.1 p.2)
        (lorentzFactor M (M.asin (w * p.2 / 2))) (hklTuple hex1 p.1) (1 / p.2)
        st1.peaks st1.twoThetas).1.map (fun e => (e.1, e.2.intensity, e.2.dHkl)) = _
    rw [htt]
    exact hrp.1

theorem stepAll_strip (M : MathFns K) (w : K) (entries : List (ScatterEntry K))
    (V : K) (hex1 hex2 : Bool) (p : (ℤ × ℤ × ℤ) × K) (st1 st2 : LoopState K)
    (hfe : st1.features = st2.features) (htt : st1.twoThetas = st2.twoThetas)
    (hpk : st1.peaks.map (fun e => (e.1, e.2.intensity, e.2.dHkl)) =
      st2.peaks.map (fun e => (e.1, e.2.intensity, e.2.dHkl))) :
    (stepAll M w entries V hex1 st1 p).features =
      (stepAll M w entries V hex2 st2 p).features
    ∧ (stepAll M w entries V hex1 st1 p).twoThetas =
      (stepAll M w entries V hex2 st2 p).twoThetas
    ∧ (stepAll M w entries V hex1 st1 p).peaks.map
        (fun e => (e.1, e.2.intensity, e.2.dHkl)) =
      (stepAll M w entries V hex2 st2 p).peaks.map
        (fun e => (e.1, e.2.intensity, e.2.dHkl)) := by
  unfold stepAll
  by_cases hs : pointSkipped w p.2 = true
  · simpa [hs] using ⟨hfe, htt, hpk⟩
  · have hs' : pointSkipped w p.2 = false := by simpa using hs
    simpa [hs'] using stepKeep_strip M w entries V hex1 hex2 p st1 st2 hfe htt hpk

theorem foldl_strip (M : MathFns K) (w : K) (entries : List (ScatterEntry K))
    (V : K) (hex1 hex2 : Bool) (pts : List ((ℤ × ℤ × ℤ) × K)) :
    ∀ st1 st2 : LoopState K, st1.features = st2.features →
      st1.twoThetas = st2.twoThetas →
      st1.peaks.map (fun e => (e.1, e.2.intensity, e.2.dHkl)) =
        st2.peaks.map (fun e => (e.1, e.2.intensity, e.2.dHkl)) →
      (pts.foldl (stepAll M w entries V hex1) st1).features =
        (pts.foldl (stepAll M w entries V hex2) st2).features
      ∧ (pts.foldl (stepAll M w entries V hex1) st1).twoThetas =
        (pts.foldl (stepAll M w entries V hex2) st2).twoThetas
      ∧ (pts.foldl (stepAll M w entries V hex1) st1).peaks.map
          (fun e => (e.1, e.2.intensity, e.2.dHkl)) =
        (pts.foldl (stepAll M w entries V hex2) st2).peaks.map
          (fun e => (e.1, e.2.intensity, e.2.dHkl)) := by
  induction pts with
  | nil => intro st1 st2 hfe htt hpk; exact ⟨hfe, htt, hpk⟩
  | cons p rest ih =>
    intro st1 st2 hfe htt hpk
    have hstep := stepAll_strip M w entries V hex1 hex2 p st1 st2 hfe htt hpk
    exact ih _ _ hstep.1 hstep.2.1 hstep.2.2

theorem maxIntensityOf_strip (p1 p2 : List (K × PeakData K))
    (h : p1.map (fun e => (e.1, e.2.intensity, e.2.dHkl)) =
      p2.map (fun e => (e.1, e.2.intensity, e.2.dHkl))) :
    maxIntensityOf p1 = maxIntensityOf p2 := by
  cases p1 with
  | nil =>
    cases p2 with
    | nil => rfl
    | cons e2 t2 => simp at h
  | cons e1 t1 =>
    cases p2 with
    | nil => simp at h
    | cons e2 t2 =>
      simp only [List.map_cons, List.cons.injEq, Prod.mk.injEq] at h
      obtain ⟨⟨-, hint, -⟩, htail⟩ := h
      have hmap : t1.map (fun q => q.2.intensity) = t2.map (fun q => q.2.intensity) := by
        have := congrArg (List.map (fun x : K × K × K => x.2.1)) htail
        simpa [List.map_map, Function.comp] using this
      show Except.ok (List.foldl max e1.2.intensity (t1.map fun q => q.2.intensity)) =
        Except.ok (List.foldl max e2.2.intensity (t2.map fun q => q.2.intensity))
      rw [hint, hmap]

theorem find?_strip (k : K) :
    ∀ p1 p2 : List (K × PeakData K),
      p1.map (fun e => (e.1, e.2.intensity, e.2.dHkl)) =
        p2.map (fun e => (e.1, e.2.intensity, e.2.dHkl)) →
      (p1.find? fun e => decide (e.1 = k)).map (fun e => (e.1, e.2.intensity, e.2.dHkl)) =
        (p2.find? fun e => decide (e.1 = k)).map
          (fun e => (e.1, e.2.intensity, e.2.dHkl)) := by
  intro p1
  induction p1 with
  | nil =>
    intro p2 h
    cases p2 with
    | nil => rfl
    | cons e2 t2 => simp at h
  | cons e1 t1 ih =>
    intro p2 h
    cases p2 with
    | nil => simp at h
    | cons e2 t2 =>
      simp only [List.map_cons, List.cons.injEq, Prod.mk.injEq] at h
      obtain ⟨⟨hk, hint, hd⟩, htail⟩ := h
      by_cases hke : e1.1 = k
      · have hke2 : e2.1 = k := by rw [← hk]; exact hke
        rw [List.find?_cons_of_pos _ (by simpa using hke),
          List.find?_cons_of_pos _ (by simpa using hke2)]
        show some (e1.1, e1.2.intensity, e1.2.dHkl) =
          some (e2.1, e2.2.intensity, e2.2.dHkl)
        rw [hk, hint, hd]
      · have hke2 : ¬ e2.1 = k := by rw [← hk]; exact hke
        rw [List.find?_cons_of_neg _ (by simpa using hke),
          List.find?_cons_of_neg _ (by simpa using hke2)]
        exact ih t2 htail

theorem lookupPeak_strip (k : K) (p1 p2 : List (K × PeakData K))
    (h : p1.map (fun e => (e.1, e.2.intensity, e.2.dHkl)) =
      p2.map (fun e => (e.1, e.2.intensity, e.2.dHkl))) :
    ((lookupPeak p1 k).getD ⟨0, [], 0⟩).intensity =
      ((lookupPeak p2 k).getD ⟨0, [], 0⟩).intensity
    ∧ ((lookupPeak p1 k).getD ⟨0, [], 0⟩).dHkl =
      ((lookupPeak p2 k).getD ⟨0, [], 0⟩).dHkl := by
  have hfind := find?_strip k p1 p2 h
  unfold lookupPeak
  cases h1 : p1.find? fun e => decide (e.1 = k) with
  | none =>
    cases h2 : p2.find? fun e => decide (e.1 = k) with
    | none => exact ⟨rfl, rfl⟩
    | some e2 => rw [h1, h2] at hfind; simp at hfind
  | some e1 =>
    cases h2 : p2.find? fun e => decide (e.1 = k) with
    | none => rw [h1, h2] at hfind; simp at hfind
    | some e2 =>
      rw [h1, h2] at hfind
      have hfind2 : ((e1.1, e1.2.intensity, e1.2.dHkl) : K × K × K) =
          (e2.1, e2.2.intensity, e2.2.dHkl) := Option.some.inj hfind
      exact ⟨congrArg (fun x : K × K × K => x.2.1) hfind2,
        congrArg (fun x : K × K × K => x.2.2) hfind2⟩

theorem buildPattern_strip (guf1 guf2 : List (List ℤ) → List (List ℤ × ℕ))
    (p1 p2 : List (K × PeakData K)) (m : K)
    (h : p1.map (fun e => (e.1, e.2.intensity, e.2.dHkl)) =
      p2.map (fun e => (e.1, e.2.intensity, e.2.dHkl))) :
    (buildPattern guf1 p1 m).x = (buildPattern guf2 p2 m).x
    ∧ (buildPattern guf1 p1 m).y = (buildPattern guf2 p2 m).y
    ∧ (buildPattern guf1 p1 m).dHkls = (buildPattern guf2 p2 m).dHkls := by
  have hkeys : p1.map (·.1) = p2.map (·.1) := by
    have := congrArg (List.map (fun x : K × K × K => x.1)) h
    simpa [List.map_map, Function.comp] using this
  have hfil : (((p2.map (·.1)).mergeSort (fun a b => decide (a ≤ b))).filter
        fun k => decide (scaledIntensityTol <
          ((lookupPeak p1 k).getD ⟨0, [], 0⟩).intensity / m * 100)) =
      (((p2.map (·.1)).mergeSort (fun a b => decide (a ≤ b))).filter
        fun k => decide (scaledIntensityTol <
          ((lookupPeak p2 k).getD ⟨0, [], 0⟩).intensity / m * 100)) := by
    apply List.filter_congr
    intro k _
    rw [(lookupPeak_strip k p1 p2 h).1]
  unfold buildPattern
  dsimp only
  rw [hkeys, hfil]
  refine ⟨rfl, ?_, ?_⟩
  · apply List.map_congr_left
    intro k _
    rw [(lookupPeak_strip k p1 p2 h).1]
  · apply List.map_congr_left
    intro k _
    rw [(lookupPeak_strip k p1 p2 h).2]

theorem updateAssoc_mem (k : K) (f : PeakData K → PeakData K) :
    ∀ peaks : List (K × PeakData K), ∀ x ∈ updateAssoc peaks k f,
      x ∈ peaks ∨ ∃ e ∈ peaks, x = (e.1, f e.2) := by
  intro peaks
  induction peaks with
  | nil => intro x hx; simp [updateAssoc] at hx
  | cons e rest ih =>
    intro x hx
    by_cases he : e.1 = k
    · rw [updateAssoc, if_pos he] at hx
      rcases List.mem_cons.mp hx with hx0 | hxr
      · exact Or.inr ⟨e, by simp, hx0⟩
      · exact Or.inl (by simp [hxr])
    · rw [updateAssoc, if_neg he] at hx
      rcases List.mem_cons.mp hx with hx0 | hxr
      · exact Or.inl (by simp [hx0])
      · rcases ih x hxr with hmem | ⟨e0, he0, heq⟩
        · exact Or.inl (by simp [hmem])
        · exact Or.inr ⟨e0, by simp [he0], heq⟩

theorem recordPeak_fams (theta iH L : K) (tup : List ℤ) (d : K)
    (peaks : List (K × PeakData K)) (tts : List K) (P : List ℤ → Prop)
    (hP : ∀ e ∈ peaks, ∀ t ∈ e.2.fams, P t) (htup : P tup) :
    ∀ e ∈ (recordPeak theta iH L tup d peaks tts).1, ∀ t ∈ e.2.fams, P t := by
  unfold recordPeak
  cases hf : tts.findIdx? (fun t => decide (|t - theta| < twoThetaTol)) with
  | none =>
    simp only [hf]
    intro e he t ht
    rcases List.mem_append.mp he with hmem | hnew
    · exact hP e hmem t ht
    · have he2 : e = (theta, ⟨iH * L, [tup], d⟩) := by simpa using hnew
      rw [he2] at ht
      have : t = tup := by simpa using ht
      rw [this]
      exact htup
  | some i =>
    simp only [hf]
    intro e he t ht
    rcases updateAssoc_mem _ _ _ e he with hmem | ⟨e0, he0, heq⟩
    · exact hP e hmem t ht
    · rw [heq] at ht
      rcases List.mem_append.mp ht with hold | hnew
      · exact hP e0 he0 t hold
      · have : t = tup := by simpa using hnew
        rw [this]
        exact htup

theorem stepAll_fams_hex (M : MathFns K) (w : K) (entries : List (ScatterEntry K))
    (V : K) (st : LoopState K) (p : (ℤ × ℤ × ℤ) × K)
    (hP : ∀ e ∈ st.peaks, ∀ t ∈ e.2.fams, ∃ h k l : ℤ, t = [h, k, -h - k, l]) :
    ∀ e ∈ (stepAll M w entries V true st p).peaks, ∀ t ∈ e.2.fams,
      ∃ h k l : ℤ, t = [h, k, -h - k, l] := by
  unfold stepAll
  by_cases hs : pointSkipped w p.2 = true
  · simpa [hs] using hP
  · have hs' : pointSkipped w p.2 = false := by simpa using hs
    simp only [hs', Bool.false_eq_true, if_false]
    unfold stepKeep
    exact recordPeak_fams _ _ _ _ _ st.peaks st.twoThetas _ hP
      ⟨p.1.1, p.1.2.1, p.1.2.2, by simp [hklTuple]⟩

theorem foldl_fams_hex (M : MathFns K) (w : K) (entries : List (ScatterEntry K))
    (V : K) (pts : List ((ℤ × ℤ × ℤ) × K)) :
    ∀ st : LoopState K,
      (∀ e ∈ st.peaks, ∀ t ∈ e.2.fams, ∃ h k l : ℤ, t = [h, k, -h - k, l]) →
      ∀ e ∈ (pts.foldl (stepAll M w entries V true) st).peaks, ∀ t ∈ e.2.fams,
        ∃ h k l : ℤ, t = [h, k, -h - k, l] := by
  induction pts with
  | nil => intro st hP; exact hP
  | cons p rest ih =>
    intro st hP
    exact ih _ (stepAll_fams_hex M w entries V st p hP)

/-- C6: on a hexagonal lattice every index tuple recorded in a merged peak's
family list is the 4-index Miller-Bravais tuple `[h, k, -h-k, l]`; and
toggling the hexagonal flag changes neither the feature list nor the peak
positions, intensities or d-spacings of the returned pattern (the
reindexing affects only the displayed families). -/
theorem claim6_hexagonal (M : MathFns K) (E : Ext K) (w V : K)
    (entries : List (ScatterEntry K)) (pts : List ((ℤ × ℤ × ℤ) × K))
    (s : XStructure K) (sc : Bool) :
    (∀ e ∈ (finalLoopState M w entries V true pts).peaks, ∀ t ∈ e.2.fams,
        ∃ h k l : ℤ, t = [h, k, -h - k, l])
    ∧ (getPattern M E w 0 (setHex s true) sc none).map (fun o => o.features)
        = (getPattern M E w 0 (setHex s false) sc none).map (fun o => o.features)
    ∧ (getPattern M E w 0 (setHex s true) sc none).map (fun o => o.pattern.x)
        = (getPattern M E w 0 (setHex s false) sc none).map (fun o => o.pattern.x)
    ∧ (getPattern M E w 0 (setHex s true) sc none).map (fun o => o.pattern.y)
        = (getPattern M E w 0 (setHex s false) sc none).map (fun o => o.pattern.y)
    ∧ (getPattern M E w 0 (setHex s true) sc none).map (fun o => o.pattern.dHkls)
        = (getPattern M E w 0 (setHex s false) sc none).map
            (fun o => o.pattern.dHkls) := by
  constructor
  · unfold finalLoopState
    apply foldl_fams_hex
    intro e he
    simp [initState] at he
  by_cases hw : w = 0
  · subst hw
    have hz : ∀ b, getPattern M E 0 0 (setHex s b) sc none =
        .error .zeroDivisionError := by
      intro b
      unfold getPattern sphereRange
      simp
    rw [hz true, hz false]
    exact ⟨rfl, rfl, rfl, rfl⟩
  cases hB : buildScatteringData E.tbl s.sites with
  | error e =>
    have h1 := getPattern_build_error M E w (setHex s true) sc e hw hB
    have h2 := getPattern_build_error M E w (setHex s false) sc e hw hB
    rw [h1, h2]
    exact ⟨rfl, rfl, rfl, rfl⟩
  | ok entries2 =>
    have h1 := getPattern_ok_form M E w (setHex s true) sc entries2 hw hB
    have h2 := getPattern_ok_form M E w (setHex s false) sc entries2 hw hB
    rw [h1, h2]
    have hfold := foldl_strip M w entries2 s.volume true false
      (sortPts (s.pointsInSphere (2 / w)))
      (initState ((entries2.map (·.z)).sum) s.volume)
      (initState ((entries2.map (·.z)).sum) s.volume) rfl rfl rfl
    have hmax : maxIntensityOf (finalLoopState M w entries2 (setHex s true).volume
        (setHex s true).isHexagonal ((setHex s true).pointsInSphere (2 / w))).peaks =
        maxIntensityOf (finalLoopState M w entries2 (setHex s false).volume
        (setHex s false).isHexagonal ((setHex s false).pointsInSphere (2 / w))).peaks :=
      maxIntensityOf_strip _ _ hfold.2.2
    cases hm : maxIntensityOf (finalLoopState M w entries2 (setHex s false).volume
        (setHex s false).isHexagonal ((setHex s false).pointsInSphere (2 / w))).peaks with
    | error e =>
      rw [hm] at hmax
      rw [hmax]
      exact ⟨rfl, rfl, rfl, rfl⟩
    | ok maxI =>
      rw [hm] at hmax
      rw [hmax]
      have hbp := buildPattern_strip E.uniqueFamilies E.uniqueFamilies
        (finalLoopState M w entries2 (setHex s true).volume
          (setHex s true).isHexagonal ((setHex s true).pointsInSphere (2 / w))).peaks
        (finalLoopState M w entries2 (setHex s false).volume
          (setHex s false).isHexagonal ((setHex s false).pointsInSphere (2 / w))).peaks
        maxI hfold.2.2
      refine ⟨?_, ?_, ?_, ?_⟩
      · simpa [Except.map] using hfold.1
      · cases sc <;>
          simp [Except.map, normalizeMax100, hbp.1]
      · cases sc <;>
          simp [Except.map, normalizeMax100, hbp.1, hbp.2.1]
      · cases sc <;>
          simp [Except.map, normalizeMax100, hbp.1, hbp.2.1, hbp.2.2]

theorem iHkl_eq_sq (M : MathFns K) (entries : List (ScatterEntry K))
    (hkl : ℤ × ℤ × ℤ) (g : K) :
    iHkl M entries hkl g =
      (fHkl M entries ((g / 2) ^ 2) hkl).1 ^ 2 +
        (fHkl M entries ((g / 2) ^ 2) hkl).2 ^ 2 := by
  unfold iHkl cmul cconj
  ring

theorem fHkl_re (M : MathFns K) (entries : List (ScatterEntry K)) (s2 : K)
    (hkl : ℤ × ℤ × ℤ) :
    (fHkl M entries s2 hkl).1 =
      (entries.map fun e =>
        atomicF M s2 e * e.occu * M.cos (2 * M.pi * gDotR e.fcoord hkl)).sum := by
  unfold fHkl csum
  apply congrArg List.sum
  rw [List.map_map]
  apply List.map_congr_left
  intro e _
  show (cmul (atomicF M s2 e * e.occu, 0)
    (cexpIm M (2 * M.pi * gDotR e.fcoord hkl))).1 = _
  unfold cmul cexpIm
  ring

theorem fHkl_im (M : MathFns K) (entries : List (ScatterEntry K)) (s2 : K)
    (hkl : ℤ × ℤ × ℤ) :
    (fHkl M entries s2 hkl).2 =
      (entries.map fun e =>
        atomicF M s2 e * e.occu * M.sin (2 * M.pi * gDotR e.fcoord hkl)).sum := by
  unfold fHkl csum
  apply congrArg List.sum
  rw [List.map_map]
  apply List.map_congr_left
  intro e _
  show (cmul (atomicF M s2 e * e.occu, 0)
    (cexpIm M (2 * M.pi * gDotR e.fcoord hkl))).2 = _
  unfold cmul cexpIm
  ring

theorem list_re_sum (l : List ℂ) : l.sum.re = (l.map Complex.re).sum := by
  induction l with
  | nil => simp
  | cons a t ih => simp [ih]

theorem list_im_sum (l : List ℂ) : l.sum.im = (l.map Complex.im).sum := by
  induction l with
  | nil => simp
  | cons a t ih => simp [ih]

theorem list_norm_sum_le (l : List ℂ) : ‖l.sum‖ ≤ (l.map fun z => ‖z‖).sum := by
  induction l with
  | nil => simp
  | cons a t ih =>
    simp only [List.sum_cons, List.map_cons]
    calc ‖a + t.sum‖ ≤ ‖a‖ + ‖t.sum‖ := norm_add_le _ _
      _ ≤ ‖a‖ + (t.map fun z => ‖z‖).sum := by linarith

theorem phase_re (a phi : ℝ) :
    ((a : ℂ) * Complex.exp ((phi : ℂ) * Complex.I)).re = a * Real.cos phi := by
  rw [Complex.exp_mul_I]
  simp [Complex.mul_re, Complex.add_re, Complex.add_im, Complex.mul_im,
    Complex.cos_ofReal_re, Complex.sin_ofReal_re, Complex.cos_ofReal_im,
    Complex.sin_ofReal_im]

theorem phase_im (a phi : ℝ) :
    ((a : ℂ) * Complex.exp ((phi : ℂ) * Complex.I)).im = a * Real.sin phi := by
  rw [Complex.exp_mul_I]
  simp [Complex.mul_im, Complex.add_re, Complex.add_im, Complex.mul_re,
    Complex.cos_ofReal_re, Complex.sin_ofReal_re, Complex.cos_ofReal_im,
    Complex.sin_ofReal_im]

theorem phase_norm (a phi : ℝ) :
    ‖(a : ℂ) * Complex.exp ((phi : ℂ) * Complex.I)‖ = |a| := by
  rw [norm_mul, Complex.norm_eq_abs, Complex.norm_eq_abs, Complex.abs_ofReal,
    Complex.abs_exp_ofReal_mul_I, mul_one]

theorem fHkl_normSq_le (entries : List (ScatterEntry ℝ)) (s2 : ℝ)
    (hkl : ℤ × ℤ × ℤ) :
    (fHkl realM entries s2 hkl).1 ^ 2 + (fHkl realM entries s2 hkl).2 ^ 2 ≤
      ((entries.map fun e => |atomicF realM s2 e * e.occu|).sum) ^ 2 := by
  have hre : (fHkl realM entries s2 hkl).1 =
      (entries.map fun e => ((atomicF realM s2 e * e.occu : ℝ) : ℂ) *
        Complex.exp (((2 * Real.pi * gDotR e.fcoord hkl : ℝ) : ℂ) * Complex.I)).sum.re := by
    rw [list_re_sum, List.map_map, fHkl_re]
    apply congrArg List.sum
    apply List.map_congr_left
    intro e _
    exact (phase_re (atomicF realM s2 e * e.occu) (2 * Real.pi * gDotR e.fcoord hkl)).symm
  have him : (fHkl realM entries s2 hkl).2 =
      (entries.map fun e => ((atomicF realM s2 e * e.occu : ℝ) : ℂ) *
        Complex.exp (((2 * Real.pi * gDotR e.fcoord hkl : ℝ) : ℂ) * Complex.I)).sum.im := by
    rw [list_im_sum, List.map_map, fHkl_im]
    apply congrArg List.sum
    apply List.map_congr_left
    intro e _
    exact (phase_im (atomicF realM s2 e * e.occu) (2 * Real.pi * gDotR e.fcoord hkl)).symm
  have hnorm : ‖(entries.map fun e => ((atomicF realM s2 e * e.occu : ℝ) : ℂ) *
      Complex.exp (((2 * Real.pi * gDotR e.fcoord hkl : ℝ) : ℂ) * Complex.I)).sum‖ ≤
      (entries.map fun e => |atomicF realM s2 e * e.occu|).sum := by
    refine le_trans (list_norm_sum_le _) (le_of_eq ?_)
    rw [List.map_map]
    apply congrArg List.sum
    apply List.map_congr_left
    intro e _
    exact phase_norm (atomicF realM s2 e * e.occu) (2 * Real.pi * gDotR e.fcoord hkl)
  have hsq : (fHkl realM entries s2 hkl).1 ^ 2 + (fHkl realM entries s2 hkl).2 ^ 2 =
      ‖(entries.map fun e => ((atomicF realM s2 e * e.occu : ℝ) : ℂ) *
        Complex.exp (((2 * Real.pi * gDotR e.fcoord hkl : ℝ) : ℂ) * Complex.I)).sum‖ ^ 2 := by
    rw [hre, him, Complex.norm_eq_abs, Complex.sq_abs, Complex.normSq_apply]
    ring
  rw [hsq]
  exact pow_le_pow_left₀ (norm_nonneg _) hnorm 2

/-- C7: the raw intensity `i_hkl = (f_hkl * conj f_hkl).re` computed by the
loop is strictly below the squared total electron count, for any structure
whose flattened sites all have occupancy 1, provided each site's atomic
scattering factor is strictly bounded in magnitude by its atomic number
(the property of the external fitted-coefficient table). -/
theorem claim7_intensity_bound (entries : List (ScatterEntry ℝ))
    (hkl : ℤ × ℤ × ℤ) (g : ℝ) (hne : entries ≠ [])
    (hocc : ∀ e ∈ entries, e.occu = 1)
    (hbound : ∀ e ∈ entries, |atomicF realM ((g / 2) ^ 2) e| < (e.z : ℝ)) :
    iHkl realM entries hkl g < (((entries.map (·.z)).sum : ℕ) : ℝ) ^ 2 := by
  have h1 := iHkl_eq_sq realM entries hkl g
  have h2 := fHkl_normSq_le entries ((g / 2) ^ 2) hkl
  have habs : ∀ e ∈ entries,
      |atomicF realM ((g / 2) ^ 2) e * e.occu| < (e.z : ℝ) := by
    intro e he
    rw [hocc e he, mul_one]
    exact hbound e he
  have h3 : (entries.map fun e => |atomicF realM ((g / 2) ^ 2) e * e.occu|).sum <
      (entries.map fun e => (e.z : ℝ)).sum := by
    apply List.sum_lt_sum
    · intro e he
      exact le_of_lt (habs e he)
    · cases entries with
      | nil => exact absurd rfl hne
      | cons a t => exact ⟨a, by simp, habs a (by simp)⟩
  have h4 : 0 ≤ (entries.map fun e => |atomicF realM ((g / 2) ^ 2) e * e.occu|).sum := by
    apply List.sum_nonneg
    intro x hx
    rcases List.mem_map.mp hx with ⟨e, -, rfl⟩
    exact abs_nonneg _
  have hcast : (((entries.map (·.z)).sum : ℕ) : ℝ) =
      (entries.map fun e => (e.z : ℝ)).sum := by
    rw [Nat.cast_list_sum, List.map_map]
    rfl
  rw [h1, hcast]
  calc (fHkl realM entries ((g / 2) ^ 2) hkl).1 ^ 2 +
        (fHkl realM entries ((g / 2) ^ 2) hkl).2 ^ 2 ≤
      ((entries.map fun e => |atomicF realM ((g / 2) ^ 2) e * e.occu|).sum) ^ 2 := h2
    _ < ((entries.map fun e => (e.z : ℝ)).sum) ^ 2 :=
      pow_lt_pow_left₀ h3 h4 (by norm_num)

theorem wBuild : buildScatteringData wExt.tbl wStruct.sites = .ok wEntries := by
  norm_num [buildScatteringData, siteEntries, speciesEntries, wStruct, wSite,
    wExt, wTbl, wEntries]

theorem wSurv : survivingPoints (1 : ℚ) wStruct = [((1, 0, 0), 1)] := by
  norm_num [survivingPoints, sortPts, List.mergeSort_singleton, wStruct,
    pointSkipped, List.filter_cons, List.filter_nil]

theorem wRunFalse : getPattern ratM wExt 1 0 wStruct false none = .ok wOut := by
  norm_num [getPattern, sphereRange, buildScatteringData, siteEntries, speciesEntries,
    wStruct, wSite, wExt, wTbl, runPoints, processPoint, pointSkipped, stepKeep,
    initState, sortPts, List.mergeSort_singleton, ratM, iHkl, fHkl, csum, cmul, cconj,
    cexpIm, atomicF, gDotR, featureRow, degrees, lorentzFactor, recordPeak,
    List.findIdx?_nil, hklTuple, maxIntensityOf, buildPattern, lookupPeak,
    scaledIntensityTol, normalizeMax100, npMax, twoThetaTol, absOneHalf,
    List.find?_cons, List.find?_nil, List.filter_cons, List.filter_nil, wOut]

theorem wFinHex : finalLoopState ratM 1 wEntries 1 true [((1, 0, 0), 1)] =
    ⟨[(60, ⟨4, [[1, 0, -1, 0]], 1⟩)], [60], [(0, 0, 0, 1), (1, 0, 0, 2)]⟩ := by
  norm_num [finalLoopState, sortPts, List.mergeSort_singleton, stepAll, stepKeep,
    pointSkipped, initState, ratM, iHkl, fHkl, csum, cmul, cconj, cexpIm, atomicF,
    gDotR, featureRow, degrees, lorentzFactor, recordPeak, List.findIdx?_nil,
    hklTuple, wEntries, twoThetaTol]

theorem claim2_witness :
    ∃ out, getPattern ratM wExt 1 0 wStruct false none = .ok out
      ∧ out.features =
          (0, 0, 0, ((((wEntries.map (·.z)).sum : ℕ) : ℚ) / wStruct.volume) ^ 2) ::
            (survivingPoints 1 wStruct).map (featureRow ratM wEntries wStruct.volume)
      ∧ (∀ site sp occu, wStruct.sites = [site] → site.species = [(sp, occu)] →
          out.features.head? = some (0, 0, 0, ((sp.Z : ℚ) / wStruct.volume) ^ 2)) :=
  claim2_feature_list ratM wExt 1 wStruct false wEntries wBuild
    (by rw [wSurv]; exact List.cons_ne_nil _ _)

theorem claim3_witness :
    (([(30 : ℚ)].findIdx? fun t => decide (|t - 30| < twoThetaTol)) = some 0
    ∧ (recordPeak (30 : ℚ) 3 (lorentzFactor ratM 1) [2, 0, -2, 0] 7
        [(30, ⟨2, [[1, 1, 1]], 1 / 2⟩)] [30]).2 = [30])
    ∧ lookupPeak (recordPeak (30 : ℚ) 3 (lorentzFactor ratM 1) [2, 0, -2, 0] 7
        [(30, ⟨2, [[1, 1, 1]], 1 / 2⟩)] [30]).1 (([30] : List ℚ).getD 0 0)
        = some ⟨2 + 3 * lorentzFactor ratM 1, [[1, 1, 1], [2, 0, -2, 0]], 1 / 2⟩ := by
  have hf : ([(30 : ℚ)].findIdx? fun t => decide (|t - 30| < twoThetaTol)) = some 0 := by
    norm_num [List.findIdx?_cons, twoThetaTol]
  have h := claim3_peak_merge ratM [((30 : ℚ), ⟨2, [[1, 1, 1]], 1 / 2⟩)] [30] 30 1 3
    [2, 0, -2, 0] 7
  have hv : lookupPeak [((30 : ℚ), ⟨2, [[1, 1, 1]], 1 / 2⟩)] (([30] : List ℚ).getD 0 0)
      = some ⟨2, [[1, 1, 1]], 1 / 2⟩ := by
    norm_num [lookupPeak, List.find?_cons, List.getD]
  exact ⟨⟨hf, (h.2.1 0 hf).1⟩, (h.2.1 0 hf).2 ⟨2, [[1, 1, 1]], 1 / 2⟩ hv⟩

theorem claim4_witness :
    ((getPattern ratM wExt 1 0 wStruct false none).map (fun o => o.pattern.y)
      = .ok [4])
    ∧ (0 : ℚ) < npMax [4]
    ∧ (getPattern ratM wExt 1 0 wStruct true none).map (fun o => o.pattern.y)
        = .ok (([4] : List ℚ).map fun v => v * (100 / npMax [4])) := by
  have h1 : (getPattern ratM wExt 1 0 wStruct false none).map (fun o => o.pattern.y)
      = .ok [4] := by
    rw [wRunFalse]
    rfl
  have h2 : (0 : ℚ) < npMax [4] := by norm_num [npMax]
  exact ⟨h1, h2, (claim4_intensity_scaling ratM wExt 1 wStruct [4] h1 h2).1⟩

theorem claim5_witness :
    (sortPts [(((1 : ℤ), (0 : ℤ), (0 : ℤ)), (1 : ℚ))]).Perm [((1, 0, 0), 1)]
    ∧ wOut.pattern.x.Sorted (· ≤ ·) := by
  have h := claim5_ordering ratM wExt 1 wStruct false [((1, 0, 0), (1 : ℚ))]
  exact ⟨h.1, h.2.2.2 wOut wRunFalse⟩

theorem claim6_witness :
    (∃ h k l : ℤ, ([1, 0, -1, 0] : List ℤ) = [h, k, -h - k, l])
    ∧ (getPattern ratM wExt 1 0 (setHex wStruct true) false none).map
        (fun o => o.features)
      = (getPattern ratM wExt 1 0 (setHex wStruct false) false none).map
        (fun o => o.features) := by
  have h := claim6_hexagonal ratM wExt 1 1 wEntries [((1, 0, 0), (1 : ℚ))] wStruct false
  refine ⟨h.1 ((60 : ℚ), ⟨4, [[1, 0, -1, 0]], 1⟩) ?_ [1, 0, -1, 0] ?_, h.2.1⟩
  · rw [wFinHex]
    simp
  · simp

theorem claim7_witness :
    iHkl realM [w7Entry] (1, 0, 0) 2 < ((([w7Entry].map (·.z)).sum : ℕ) : ℝ) ^ 2 := by
  refine claim7_intensity_bound [w7Entry] (1, 0, 0) 2 (by simp) ?_ ?_
  · intro e he
    rw [List.mem_singleton] at he
    subst he
    rfl
  · intro e he
    rw [List.mem_singleton] at he
    subst he
    have hval : atomicF realM (((2 : ℝ) / 2) ^ 2) w7Entry = 42 - 4178214 / 100000 := by
      norm_num [atomicF, w7Entry, realM, Real.exp_zero]
    show |atomicF realM (((2 : ℝ) / 2) ^ 2) w7Entry| < ((42 : ℕ) : ℝ)
    rw [hval, abs_of_pos (by norm_num)]
    norm_num

theorem claim8_witness :
    ∃ sym, wTbl sym = none
      ∧ (∃ site ∈ [wSiteX], ∃ q ∈ site.species, q.1.symbol = sym)
      ∧ buildScatteringData wTbl [wSiteX] = .error (errNoCoeff sym) :=
  (claim8_missing_coeff wTbl [wSiteX]).1
    ⟨wSiteX, by simp, (⟨104, "Rf"⟩, 1), by simp [wSiteX], by simp [wTbl]⟩

/-- C9 counterexample: on the concrete run with wavelength `-1` the call is
not rejected as invalid input; it proceeds through enumeration (every point
is filtered out, since any `g >= 1e-4` exceeds the negative sphere radius
`2/wavelength`) and fails only at the final empty-peak maximum of line 293
with Python's `max()` `ValueError` — not with any wavelength validation
error. -/
theorem claim9_counterexample :
    getPattern ratM wExt (-1) 0 wStruct true none = .error errEmptyMax := by
  norm_num [getPattern, sphereRange, buildScatteringData, siteEntries, speciesEntries,
    wStruct, wSite, wExt, wTbl, runPoints, processPoint, pointSkipped, initState,
    sortPts, List.mergeSort_singleton, maxIntensityOf]

theorem claim9_witness :
    ((-1 : ℚ) ≤ 0)
    ∧ getPattern ratM wExt (-1) 0 wStruct true none = .error errEmptyMax := by
  have h := claim9_nonpositive_wavelength ratM wExt wStruct true (-1) (by norm_num)
  exact ⟨by norm_num, h.2.1 (by norm_num) wEntries wBuild⟩

theorem claim10_witness :
    survivingPoints (1 : ℚ) wStructFar = []
    ∧ getPattern ratM wExt 1 0 wStructFar false none = .error errEmptyMax := by
  have hAll : survivingPoints (1 : ℚ) wStructFar = [] := by
    norm_num [survivingPoints, sortPts, List.mergeSort_singleton, wStructFar,
      pointSkipped, List.filter_cons, List.filter_nil]
  have hB : buildScatteringData wExt.tbl wStructFar.sites = .ok wEntries := by
    norm_num [buildScatteringData, siteEntries, speciesEntries, wStructFar, wSite,
      wExt, wTbl, wEntries]
  exact ⟨hAll,
    claim10_empty_peaks ratM wExt 1 wStructFar false wEntries (by norm_num) hB hAll⟩

theorem claim1_witness :
    (pointSkipped (1 : ℚ) 2 = false ↔ 1 / 10000 ≤ (2 : ℚ) ∧ (2 : ℚ) ≤ 2 / 1)
    ∧ pointSkipped (1 : ℚ) 2 = false :=
  ⟨(@claim1_boundary_filter ℚ _).1 1 2, (@claim1_boundary_filter ℚ _).2⟩

end XRD
